import Mathlib

/-!
Shallow embedding of the rusty-mimasim core (MiMA simulator) and proofs
about it.  Machine words (Rust `u32`) are modelled as `Nat` values below
`2 ^ 32`; wrapping arithmetic carries an explicit `% 2 ^ 32`; Rust `<<`,
`>>`, `&`, `|`, `^`, `!` on `u32` become `<<<` (with `% 2 ^ 32` where the
shift can overflow), `>>>`, `&&&`, `|||`, `^^^` and xor with the all-ones
word.  The `match` statements of the source on integer literals are
rendered as the equivalent conditional chains.  Panicking assertions of
the source are noted in comments; the corresponding predicates appear as
hypotheses or proof obligations of the theorems.  The linear memory array
is modelled as a total function on addresses (faithful on the in-bounds
indices the source ever touches).
-/

namespace MimaSim

/-! ## Definitions: address space and codec (src/types/mod.rs) -/

def ADDRESS_SPACE_WORDS : Nat := 2 ^ 28

def DEVICE_IO_ADDRESS_SPACE_WORDS : Nat := ADDRESS_SPACE_WORDS / 4

def LINEAR_ADDRESS_SPACE_WORDS : Nat := 3 * DEVICE_IO_ADDRESS_SPACE_WORDS

/-- The MiMA instruction set (`enum Instruction`). Payloads are machine words. -/
inductive Instruction where
  | add (pl : Nat)
  | and (pl : Nat)
  | or (pl : Nat)
  | xor (pl : Nat)
  | loadValue (pl : Nat)
  | storeValue (pl : Nat)
  | loadConstant (pl : Nat)
  | jump (pl : Nat)
  | jumpIfNegative (pl : Nat)
  | equals (pl : Nat)
  | halt
  | not
  | rotateRight (pl : Nat)
  | noOperation
  deriving DecidableEq, Repr

/-- Disassembly `impl From<Word> for Instruction`. -/
def decode (w : Nat) : Instruction :=
  let opcode := w >>> 28
  if opcode ≠ 15 then
    -- Basic format:
    let payload := w &&& 0x0FFFFFFF
    if opcode = 0x00 then .add payload
    else if opcode = 0x01 then .and payload
    else if opcode = 0x02 then .or payload
    else if opcode = 0x03 then .xor payload
    else if opcode = 0x04 then .loadValue payload
    else if opcode = 0x05 then .storeValue payload
    else if opcode = 0x06 then .loadConstant payload
    else if opcode = 0x07 then .jump payload
    else if opcode = 0x08 then .jumpIfNegative payload
    else if opcode = 0x09 then .equals payload
    else .noOperation
  else
    -- Extended format:
    let payload := w &&& 0x00FFFFFF
    let sub := (w &&& 0x0F000000) >>> 24
    if sub = 0x00 then .halt
    else if sub = 0x01 then .not
    else if sub = 0x02 then .rotateRight payload
    else .noOperation

/-- Opcode, format flag and payload of an instruction, as computed by
`impl From<Instruction> for Word`. -/
def encodeParts (i : Instruction) : Nat × Bool × Nat :=
  match i with
  | .add pl => (0x00, true, pl)
  | .and pl => (0x01, true, pl)
  | .or pl => (0x02, true, pl)
  | .xor pl => (0x03, true, pl)
  | .loadValue pl => (0x04, true, pl)
  | .storeValue pl => (0x05, true, pl)
  | .loadConstant pl => (0x06, true, pl)
  | .jump pl => (0x07, true, pl)
  | .jumpIfNegative pl => (0x08, true, pl)
  | .equals pl => (0x09, true, pl)
  | .halt => (0x00, false, 0)
  | .not => (0x01, false, 0)
  | .rotateRight pl => (0x02, false, pl)
  | .noOperation => (0x0F, false, 0)

/-- Assembly `impl From<Instruction> for Word`. The source asserts that the
payload fits the chosen format; that bound appears as a hypothesis of the
round-trip theorems. -/
def encode (i : Instruction) : Nat :=
  let (opcode, isBasicFormat, payload) := encodeParts i
  if isBasicFormat then
    (opcode <<< 28) ||| payload
  else
    0xF0000000 ||| (opcode <<< 24) ||| payload

/-- Payload bound asserted by `encode` (28 bits for the basic format,
24 bits for the extended RAR payload, nothing for payload-free cases). -/
def payloadInRange (i : Instruction) : Prop :=
  match i with
  | .add pl | .and pl | .or pl | .xor pl | .loadValue pl | .storeValue pl
  | .loadConstant pl | .jump pl | .jumpIfNegative pl | .equals pl => pl < 2 ^ 28
  | .rotateRight pl => pl < 2 ^ 24
  | .halt | .not | .noOperation => True

/-- The value `encode (decode w)` actually takes (used by the amended
claim C6): words with an assigned basic opcode round-trip; unassigned
basic opcodes 0xA..0xE and unknown extended sub-opcodes normalize to the
NOP encoding; HLT, NOT and NOP encodings with a nonzero 24-bit payload
have that payload cleared; only the RAR sub-opcode keeps its payload. -/
def roundTripWord (w : Nat) : Nat :=
  if w >>> 28 ≤ 9 then w
  else if w >>> 28 ≠ 15 then 0xFF000000
  else if (w &&& 0x0F000000) >>> 24 = 0 then 0xF0000000
  else if (w &&& 0x0F000000) >>> 24 = 1 then 0xF1000000
  else if (w &&& 0x0F000000) >>> 24 = 2 then w
  else 0xFF000000

/-! ## Definitions: registers and bus (src/types/mod.rs, src/bus/mod.rs) -/

/-- The nine register names (bitflags `Registers` cases). -/
inductive Reg where
  | ACC | ONE | X | Y | Z | IAR | IR | SAR | SIR
  deriving DecidableEq, Repr

/-- A set of register names (the bitflags `Registers` value). -/
structure RegSet where
  acc : Bool := false
  one : Bool := false
  x : Bool := false
  y : Bool := false
  z : Bool := false
  iar : Bool := false
  ir : Bool := false
  sar : Bool := false
  sir : Bool := false
  deriving DecidableEq, Repr

def RegSet.contains (s : RegSet) (r : Reg) : Bool :=
  match r with
  | .ACC => s.acc
  | .ONE => s.one
  | .X => s.x
  | .Y => s.y
  | .Z => s.z
  | .IAR => s.iar
  | .IR => s.ir
  | .SAR => s.sar
  | .SIR => s.sir

def RegSet.union (a b : RegSet) : RegSet :=
  ⟨a.acc || b.acc, a.one || b.one, a.x || b.x, a.y || b.y, a.z || b.z,
   a.iar || b.iar, a.ir || b.ir, a.sar || b.sar, a.sir || b.sir⟩

def RegSet.ACC : RegSet := { acc := true }
def RegSet.ONE : RegSet := { one := true }
def RegSet.X : RegSet := { x := true }
def RegSet.Y : RegSet := { y := true }
def RegSet.Z : RegSet := { z := true }
def RegSet.IAR : RegSet := { iar := true }
def RegSet.IR : RegSet := { ir := true }
def RegSet.SAR : RegSet := { sar := true }
def RegSet.SIR : RegSet := { sir := true }

/-- `Registers::ALL_REGISTERS`, in source order. -/
def ALL_REGISTERS : List Reg := [.ACC, .ONE, .X, .Y, .Z, .IR, .IAR, .SAR, .SIR]

/-- A bus transfer (`bus::Xfer`).  `Xfer::new` additionally asserts the
source/destination validity constraints; every descriptor constructed by
the microcycle tables satisfies them. -/
structure BusXfer where
  source : Reg
  destinations : RegSet
  source_bitmask : Nat
  is_acc_dependent : Bool
  deriving DecidableEq, Repr

def BusXfer.SOURCE_BITMASK_FULL : Nat := 0xFFFFFFFF
def BusXfer.SOURCE_BITMASK_BASIC_PAYLOAD : Nat := 0x0FFFFFFF
def BusXfer.SOURCE_BITMASK_EXTENDED_PAYLOAD : Nat := 0x00FFFFFF

def BusXfer.new (source : Reg) (destinations : RegSet) (source_bitmask : Nat) : BusXfer :=
  ⟨source, destinations, source_bitmask, false⟩

/-! ## Definitions: arithmetic unit (src/unit/arithmetic.rs) -/

def MICROCYCLES_PER_OP : Nat := 1

/-- `arithmetic::Operation`. -/
inductive ALUOperation where
  | add | and | or | xor | equals | not | rotateRight
  deriving DecidableEq, Repr

/-- `arithmetic::Work` (the private snapshot fields `x`, `y` included). -/
structure ALUWork where
  op : ALUOperation
  x : Nat
  y : Nat
  remaining_cycles : Nat
  deriving Repr

structure ArithmeticUnit where
  acc : Nat
  one : Nat
  x : Nat
  y : Nat
  z : Nat
  work : Option ALUWork
  deriving Repr

def ArithmeticUnit.new : ArithmeticUnit := ⟨0, 1, 0, 0, 0, none⟩

/-- `Unit::finalize_work`: commit the pending result into Z. -/
def ArithmeticUnit.finalize_work (u : ArithmeticUnit) (work : ALUWork) : ArithmeticUnit :=
  { u with z :=
      match work.op with
      | .add => (work.x + work.y) % 2 ^ 32
      | .and => work.x &&& work.y
      | .or => work.x ||| work.y
      | .xor => work.x ^^^ work.y
      | .equals => if work.x = work.y then 0xFFFFFFFF else 0
      | .not => work.x ^^^ 0xFFFFFFFF
      | .rotateRight =>
          let rot := work.y % 32
          (work.x >>> rot) ||| ((work.x <<< rot) % 2 ^ 32) }

def ArithmeticUnit.poll_work (u : ArithmeticUnit) : ArithmeticUnit :=
  match u.work with
  | none => u
  | some work =>
    if work.remaining_cycles > 0 then
      { u with work := some { work with remaining_cycles := work.remaining_cycles - 1 } }
    else
      ({ u with work := none }).finalize_work work

/-- `Unit::signal_alu`. The source asserts that no ALU operation is in
progress; claim C4 shows the assertion never fires on reachable states. -/
def ArithmeticUnit.signal_alu (u : ArithmeticUnit) (op : ALUOperation) : ArithmeticUnit :=
  { u with work := some ⟨op, u.x, u.y, MICROCYCLES_PER_OP⟩ }

/-! ## Definitions: memory unit (src/unit/memory.rs) -/

def MICROCYCLES_PER_ACCESS : Nat := 3

/-- `memory::Type`. -/
inductive MemoryType where
  | linear | device_io
  deriving DecidableEq, Repr

/-- `Type::from_address`.  The source panics for addresses at or above
`2 ^ 28`; the model folds that unreachable branch into `device_io`. -/
def MemoryType.from_address (address : Nat) : MemoryType :=
  if address < LINEAR_ADDRESS_SPACE_WORDS then .linear else .device_io

/-- `memory::Access`. -/
inductive MemoryAccess where
  | read | write
  deriving DecidableEq, Repr

/-- `memory::Work` (private snapshot fields `sar`, `sir` included). -/
structure MemoryWork where
  mem_type : MemoryType
  access : MemoryAccess
  sar : Nat
  sir : Nat
  remaining_cycles : Nat
  deriving Repr

structure MemoryUnit where
  sar : Nat
  sir : Nat
  work : Option MemoryWork
  linear_memory : Nat → Nat

/-- A fresh memory unit: all words initialized to the HLT encoding. -/
def MemoryUnit.new : MemoryUnit := ⟨0, 0, none, fun _ => encode .halt⟩

def MemoryUnit.finalize_work_linear (u : MemoryUnit) (work : MemoryWork) : MemoryUnit :=
  match work.access with
  | .read => { u with sir := u.linear_memory work.sar }
  | .write => { u with linear_memory := fun a => if a = work.sar then work.sir else u.linear_memory a }

def MemoryUnit.finalize_work_device_io (u : MemoryUnit) (work : MemoryWork) : MemoryUnit :=
  match work.access with
  | .read => { u with sir := 42 }
  | .write => u

def MemoryUnit.poll_work (u : MemoryUnit) : MemoryUnit :=
  match u.work with
  | none => u
  | some work =>
    if work.remaining_cycles = 0 then
      let u' := { u with work := none }
      match work.mem_type with
      | .linear => u'.finalize_work_linear work
      | .device_io => u'.finalize_work_device_io work
    else
      { u with work := some { work with remaining_cycles := work.remaining_cycles - 1 } }

/-- `Unit::signal_memory`. The source asserts that no memory access is in
progress; claim C4 shows the assertion never fires on reachable states. -/
def MemoryUnit.signal_memory (u : MemoryUnit) (access : MemoryAccess) : MemoryUnit :=
  { u with work := some ⟨MemoryType.from_address u.sar, access, u.sar, u.sir, MICROCYCLES_PER_ACCESS⟩ }

/-- `Unit::load_raw_code` (the source asserts the length bound and copies
the slice to offset 0). -/
def MemoryUnit.load_raw_code (u : MemoryUnit) (raw_code : List Nat) : MemoryUnit :=
  { u with linear_memory := fun a =>
      if h : a < raw_code.length then raw_code.get ⟨a, h⟩ else u.linear_memory a }

/-- An assembler symbol (`assembler::Symbol`); the source field `prefix`
of the contained `Label` is renamed `device` (`prefix` is reserved in
Lean). -/
structure Symbol where
  instruction_address : Nat
  device : String
  name : String
  deriving Repr

structure ObjectCode where
  raw_code : List Nat
  symbol_table : List Symbol
  deriving Repr

structure ResolvedSymbol where
  instruction_address : Nat
  device_address : Nat
  deriving Repr

/-- `Unit::resolve_symbol_table`: the stub resolver maps every symbol to
the device address `0x0FFFFFFF` and cannot fail. -/
def resolve_symbol_table (symbol_table : List Symbol) : List ResolvedSymbol :=
  symbol_table.map (fun sym => ⟨sym.instruction_address, 0x0FFFFFFF⟩)

/-- `Unit::load_code`: resolve symbols, copy the raw code, then combine
each resolved device address into its instruction word with `&=`. -/
def MemoryUnit.load_code (u : MemoryUnit) (code : ObjectCode) : MemoryUnit :=
  let resolved_symbols := resolve_symbol_table code.symbol_table
  let u := u.load_raw_code code.raw_code
  resolved_symbols.foldl
    (fun u sym =>
      { u with linear_memory := fun a =>
          if a = sym.instruction_address then
            u.linear_memory a &&& (sym.device_address &&& 0x0FFFFFFF)
          else u.linear_memory a })
    u

/-! ## Definitions: control unit (src/unit/control.rs) -/

structure Status where
  run : Bool
  tra : Bool
  deriving DecidableEq, Repr

def Status.new : Status := ⟨true, false⟩

structure ControlUnit where
  iar : Nat
  ir : Nat
  status : Status
  microcycle : Nat
  instruction : Option Instruction
  deriving Repr

def ControlUnit.new : ControlUnit := ⟨0, 0, Status.new, 1, none⟩

/-- `Unit::end_microcycle`: decode IR at the end of microcycle 5, clear
RUN on a completed HLT and drop the instruction at the end of microcycle
12, then advance the counter (12 wraps to 1).  The source `expect`s the
instruction to be present at microcycle 12; claim C5 shows it is. -/
def ControlUnit.end_microcycle (u : ControlUnit) : ControlUnit :=
  let u :=
    if u.microcycle = 5 then
      { u with instruction := some (decode u.ir) }
    else if u.microcycle = 12 then
      let status :=
        match u.instruction with
        | some .halt => { u.status with run := false }
        | _ => u.status
      { u with status := status, instruction := none }
    else u
  if u.microcycle = 12 then
    { u with microcycle := 1 }
  else
    { u with microcycle := u.microcycle + 1 }

/-- `Unit::start_xfer` (asserts `!tra` in the source). -/
def ControlUnit.start_xfer (u : ControlUnit) : ControlUnit :=
  { u with status := { u.status with tra := true } }

/-- `Unit::stop_xfer` (asserts `tra` in the source). -/
def ControlUnit.stop_xfer (u : ControlUnit) : ControlUnit :=
  { u with status := { u.status with tra := false } }

/-! ## Definitions: microcycle descriptors (src/microcycle/) -/

structure Descriptor where
  bus_xfer : Option BusXfer
  alu_op : Option ALUOperation
  mem_access : Option MemoryAccess
  deriving DecidableEq, Repr

def Descriptor.empty : Descriptor := ⟨none, none, none⟩

def Descriptor.with_bus_xfer (d : Descriptor) (source : Reg) (destinations : RegSet) :
    Descriptor :=
  { d with bus_xfer := some (BusXfer.new source destinations BusXfer.SOURCE_BITMASK_FULL) }

def Descriptor.with_masked_bus_xfer (d : Descriptor) (source : Reg) (destinations : RegSet)
    (source_bitmask : Nat) : Descriptor :=
  { d with bus_xfer := some (BusXfer.new source destinations source_bitmask) }

def Descriptor.acc_dependent (d : Descriptor) : Descriptor :=
  { d with bus_xfer := d.bus_xfer.map (fun bx => { bx with is_acc_dependent := true }) }

def Descriptor.with_alu_op (d : Descriptor) (alu_op : ALUOperation) : Descriptor :=
  { d with alu_op := some alu_op }

def Descriptor.with_mem_access (d : Descriptor) (mem_access : MemoryAccess) : Descriptor :=
  { d with mem_access := some mem_access }

def empty_desc : Descriptor := Descriptor.empty

/-- `fetch::descriptor` (microcycles 1..5, identical for every instruction). -/
def fetch_descriptor (microcycle : Nat) : Descriptor :=
  if microcycle = 1 then
    (empty_desc.with_bus_xfer .IAR (RegSet.SAR.union RegSet.X)).with_mem_access .read
  else if microcycle = 2 then
    (empty_desc.with_bus_xfer .ONE RegSet.Y).with_alu_op .add
  else if microcycle = 4 then
    empty_desc.with_bus_xfer .Z RegSet.IAR
  else if microcycle = 5 then
    empty_desc.with_bus_xfer .SIR RegSet.IR
  else empty_desc

def descriptor_add (microcycle : Nat) : Descriptor :=
  if microcycle = 6 then
    (empty_desc.with_masked_bus_xfer .IR RegSet.SAR
      BusXfer.SOURCE_BITMASK_BASIC_PAYLOAD).with_mem_access .read
  else if microcycle = 7 then empty_desc.with_bus_xfer .ACC RegSet.X
  else if microcycle = 10 then (empty_desc.with_bus_xfer .SIR RegSet.Y).with_alu_op .add
  else if microcycle = 12 then empty_desc.with_bus_xfer .Z RegSet.ACC
  else empty_desc

def descriptor_and (microcycle : Nat) : Descriptor :=
  if microcycle = 6 then
    (empty_desc.with_masked_bus_xfer .IR RegSet.SAR
      BusXfer.SOURCE_BITMASK_BASIC_PAYLOAD).with_mem_access .read
  else if microcycle = 7 then empty_desc.with_bus_xfer .ACC RegSet.X
  else if microcycle = 10 then (empty_desc.with_bus_xfer .SIR RegSet.Y).with_alu_op .and
  else if microcycle = 12 then empty_desc.with_bus_xfer .Z RegSet.ACC
  else empty_desc

def descriptor_or (microcycle : Nat) : Descriptor :=
  if microcycle = 6 then
    (empty_desc.with_masked_bus_xfer .IR RegSet.SAR
      BusXfer.SOURCE_BITMASK_BASIC_PAYLOAD).with_mem_access .read
  else if microcycle = 7 then empty_desc.with_bus_xfer .ACC RegSet.X
  else if microcycle = 10 then (empty_desc.with_bus_xfer .SIR RegSet.Y).with_alu_op .or
  else if microcycle = 12 then empty_desc.with_bus_xfer .Z RegSet.ACC
  else empty_desc

def descriptor_xor (microcycle : Nat) : Descriptor :=
  if microcycle = 6 then
    (empty_desc.with_masked_bus_xfer .IR RegSet.SAR
      BusXfer.SOURCE_BITMASK_BASIC_PAYLOAD).with_mem_access .read
  else if microcycle = 7 then empty_desc.with_bus_xfer .ACC RegSet.X
  else if microcycle = 10 then (empty_desc.with_bus_xfer .SIR RegSet.Y).with_alu_op .xor
  else if microcycle = 12 then empty_desc.with_bus_xfer .Z RegSet.ACC
  else empty_desc

def descriptor_load_value (microcycle : Nat) : Descriptor :=
  if microcycle = 6 then
    (empty_desc.with_masked_bus_xfer .IR RegSet.SAR
      BusXfer.SOURCE_BITMASK_BASIC_PAYLOAD).with_mem_access .read
  else if microcycle = 10 then empty_desc.with_bus_xfer .SIR RegSet.ACC
  else empty_desc

def descriptor_store_value (microcycle : Nat) : Descriptor :=
  if microcycle = 6 then
    empty_desc.with_masked_bus_xfer .IR RegSet.SAR BusXfer.SOURCE_BITMASK_BASIC_PAYLOAD
  else if microcycle = 7 then
    (empty_desc.with_bus_xfer .ACC RegSet.SIR).with_mem_access .write
  else empty_desc

def descriptor_load_constant (microcycle : Nat) : Descriptor :=
  if microcycle = 6 then
    empty_desc.with_masked_bus_xfer .IR RegSet.ACC BusXfer.SOURCE_BITMASK_BASIC_PAYLOAD
  else empty_desc

def descriptor_jump (microcycle : Nat) : Descriptor :=
  if microcycle = 6 then
    empty_desc.with_masked_bus_xfer .IR RegSet.IAR BusXfer.SOURCE_BITMASK_BASIC_PAYLOAD
  else empty_desc

def descriptor_jump_if_negative (microcycle : Nat) : Descriptor :=
  if microcycle = 6 then
    (empty_desc.with_masked_bus_xfer .IR RegSet.IAR
      BusXfer.SOURCE_BITMASK_BASIC_PAYLOAD).acc_dependent
  else empty_desc

def descriptor_equals (microcycle : Nat) : Descriptor :=
  if microcycle = 6 then
    (empty_desc.with_masked_bus_xfer .IR RegSet.SAR
      BusXfer.SOURCE_BITMASK_BASIC_PAYLOAD).with_mem_access .read
  else if microcycle = 7 then empty_desc.with_bus_xfer .ACC RegSet.X
  else if microcycle = 10 then (empty_desc.with_bus_xfer .SIR RegSet.Y).with_alu_op .equals
  else if microcycle = 12 then empty_desc.with_bus_xfer .Z RegSet.ACC
  else empty_desc

def descriptor_halt (_microcycle : Nat) : Descriptor := empty_desc

def descriptor_not (microcycle : Nat) : Descriptor :=
  if microcycle = 6 then (empty_desc.with_bus_xfer .ACC RegSet.X).with_alu_op .not
  else if microcycle = 8 then empty_desc.with_bus_xfer .Z RegSet.ACC
  else empty_desc

def descriptor_rotate_right (microcycle : Nat) : Descriptor :=
  if microcycle = 6 then empty_desc.with_bus_xfer .ACC RegSet.X
  else if microcycle = 7 then
    (empty_desc.with_masked_bus_xfer .IR RegSet.Y
      BusXfer.SOURCE_BITMASK_EXTENDED_PAYLOAD).with_alu_op .rotateRight
  else if microcycle = 9 then empty_desc.with_bus_xfer .Z RegSet.ACC
  else empty_desc

def descriptor_no_operation (_microcycle : Nat) : Descriptor := empty_desc

/-- `execute::descriptor` (microcycles 6..12, per instruction). -/
def execute_descriptor (microcycle : Nat) (instruction : Instruction) : Descriptor :=
  match instruction with
  | .add _ => descriptor_add microcycle
  | .and _ => descriptor_and microcycle
  | .or _ => descriptor_or microcycle
  | .xor _ => descriptor_xor microcycle
  | .loadValue _ => descriptor_load_value microcycle
  | .storeValue _ => descriptor_store_value microcycle
  | .loadConstant _ => descriptor_load_constant microcycle
  | .jump _ => descriptor_jump microcycle
  | .jumpIfNegative _ => descriptor_jump_if_negative microcycle
  | .equals _ => descriptor_equals microcycle
  | .halt => descriptor_halt microcycle
  | .not => descriptor_not microcycle
  | .rotateRight _ => descriptor_rotate_right microcycle
  | .noOperation => descriptor_no_operation microcycle

/-! ## Definitions: the machine (src/mima/mod.rs) -/

structure Mima where
  arithmetic_unit : ArithmeticUnit
  control_unit : ControlUnit
  memory_unit : MemoryUnit

def Mima.new : Mima := ⟨ArithmeticUnit.new, ControlUnit.new, MemoryUnit.new⟩

/-- Read the bus source register (the source panics on an invalid source;
the tables only build valid ones, so the default branch is unreachable). -/
def Mima.bus_source_value (m : Mima) (source : Reg) : Nat :=
  match source with
  | .ACC => m.arithmetic_unit.acc
  | .ONE => m.arithmetic_unit.one
  | .Z => m.arithmetic_unit.z
  | .IAR => m.control_unit.iar
  | .IR => m.control_unit.ir
  | .SIR => m.memory_unit.sir
  | _ => 0

/-- Write one bus destination register (the source panics on ONE and Z;
the tables never use them, so those branches are unreachable no-ops). -/
def Mima.write_bus_dest (m : Mima) (dest : Reg) (value : Nat) : Mima :=
  match dest with
  | .ACC => { m with arithmetic_unit := { m.arithmetic_unit with acc := value } }
  | .X => { m with arithmetic_unit := { m.arithmetic_unit with x := value } }
  | .Y => { m with arithmetic_unit := { m.arithmetic_unit with y := value } }
  | .IAR => { m with control_unit := { m.control_unit with iar := value } }
  | .IR => { m with control_unit := { m.control_unit with ir := value } }
  | .SAR => { m with memory_unit := { m.memory_unit with sar := value } }
  | .SIR => { m with memory_unit := { m.memory_unit with sir := value } }
  | _ => m

/-- `Mima::perform_bus_xfer`: skip unsatisfied accumulator-dependent
transfers, mask the source value, write it to every flagged destination
(iterating `ALL_REGISTERS` in order, as the source loop does). -/
def Mima.perform_bus_xfer (m : Mima) (bus_xfer : BusXfer) : Mima :=
  if bus_xfer.is_acc_dependent ∧ m.arithmetic_unit.acc &&& (1 <<< 31) = 0 then m
  else
    let value := bus_xfer.source_bitmask &&& m.bus_source_value bus_xfer.source
    (ALL_REGISTERS.filter (fun dest => bus_xfer.destinations.contains dest)).foldl
      (fun m dest => m.write_bus_dest dest value) m

def Mima.perform_alu_signal (m : Mima) (alu_op : ALUOperation) : Mima :=
  { m with arithmetic_unit := m.arithmetic_unit.signal_alu alu_op }

/-- `Mima::perform_mem_signal`: frame device-I/O accesses with the TRA
flag, then signal the memory unit. -/
def Mima.perform_mem_signal (m : Mima) (mem_access : MemoryAccess) : Mima :=
  let is_xfer :=
    match MemoryType.from_address m.memory_unit.sar with
    | .linear => false
    | .device_io => true
  let m := if is_xfer then { m with control_unit := m.control_unit.start_xfer } else m
  let m := { m with memory_unit := m.memory_unit.signal_memory mem_access }
  if is_xfer then { m with control_unit := m.control_unit.stop_xfer } else m

def Mima.process_microcycle_descriptor (m : Mima) (microcycle_desc : Descriptor) : Mima :=
  let m :=
    match microcycle_desc.bus_xfer with
    | some bus_xfer => m.perform_bus_xfer bus_xfer
    | none => m
  let m :=
    match microcycle_desc.alu_op with
    | some alu_op => m.perform_alu_signal alu_op
    | none => m
  match microcycle_desc.mem_access with
  | some mem_access => m.perform_mem_signal mem_access
  | none => m

/-- `Mima::perform_microcycle`: `None` when halted, otherwise poll both
units, look up the descriptor (execute table when an instruction is
stored, fetch table otherwise), process it, end the microcycle, and
return the descriptor. -/
def Mima.perform_microcycle (m : Mima) : Option Descriptor × Mima :=
  if m.control_unit.status.run then
    let m := { m with arithmetic_unit := m.arithmetic_unit.poll_work }
    let m := { m with memory_unit := m.memory_unit.poll_work }
    let microcycle := m.control_unit.microcycle
    let microcycle_desc :=
      match m.control_unit.instruction with
      | some instruction => execute_descriptor microcycle instruction
      | none => fetch_descriptor microcycle
    let m := m.process_microcycle_descriptor microcycle_desc
    let m := { m with control_unit := m.control_unit.end_microcycle }
    (some microcycle_desc, m)
  else
    (none, m)

def Mima.step (m : Mima) : Mima := m.perform_microcycle.2

/-- Iterate `perform_microcycle` (state part) `n` times. -/
def stepN : Nat → Mima → Mima
  | 0, m => m
  | n + 1, m => stepN n m.step

/-- A fresh machine with an arbitrary linear-memory image loaded (covers
every loader: they only replace linear-memory contents). -/
def initialMima (mem0 : Nat → Nat) : Mima :=
  { Mima.new with memory_unit := { MemoryUnit.new with linear_memory := mem0 } }

/-- A fresh machine loaded (via `load_raw_code`) with the one-instruction
program `HLT`. -/
def mimaHlt : Mima :=
  { Mima.new with memory_unit := MemoryUnit.new.load_raw_code [encode .halt] }

/-! ## Definitions: work schedule invariant -/

def workRemaining (w : Option ALUWork) : Option Nat :=
  w.map (fun work => work.remaining_cycles)

def memWorkRemaining (w : Option MemoryWork) : Option Nat :=
  w.map (fun work => work.remaining_cycles)

/-- One poll tick on a remaining-cycles observation: a positive count is
decremented, a zero count finalizes and disappears. -/
def tickSched : Option Nat → Option Nat
  | none => none
  | some r => if r > 0 then some (r - 1) else none

/-- Remaining ALU cycles observed at the start of each microcycle (state
seen between steps): the fetch ALU job is signalled in microcycle 2 and
lives through 3 and 4; execute-phase jobs follow the per-instruction
tables. -/
def aluSched (microcycle : Nat) (instr : Option Instruction) : Option Nat :=
  match instr with
  | none =>
    if microcycle = 3 then some 1 else if microcycle = 4 then some 0 else none
  | some i =>
    match i with
    | .add _ | .and _ | .or _ | .xor _ | .equals _ =>
      if microcycle = 11 then some 1 else if microcycle = 12 then some 0 else none
    | .not =>
      if microcycle = 7 then some 1 else if microcycle = 8 then some 0 else none
    | .rotateRight _ =>
      if microcycle = 8 then some 1 else if microcycle = 9 then some 0 else none
    | _ => none

/-- Remaining memory cycles observed at the start of each microcycle. -/
def memSched (microcycle : Nat) (instr : Option Instruction) : Option Nat :=
  match instr with
  | none =>
    if microcycle = 2 then some 3 else if microcycle = 3 then some 2
    else if microcycle = 4 then some 1 else if microcycle = 5 then some 0 else none
  | some i =>
    match i with
    | .add _ | .and _ | .or _ | .xor _ | .equals _ | .loadValue _ =>
      if microcycle = 7 then some 3 else if microcycle = 8 then some 2
      else if microcycle = 9 then some 1 else if microcycle = 10 then some 0 else none
    | .storeValue _ =>
      if microcycle = 8 then some 3 else if microcycle = 9 then some 2
      else if microcycle = 10 then some 1 else if microcycle = 11 then some 0 else none
    | _ => none

/-- The state invariant maintained by `perform_microcycle` (observed
between steps): counter in range, instruction present exactly in the
execute phase, ALU and memory work following the schedule, TRA clear. -/
def Inv (m : Mima) : Prop :=
  1 ≤ m.control_unit.microcycle ∧ m.control_unit.microcycle ≤ 12 ∧
  (m.control_unit.instruction.isSome ↔ 6 ≤ m.control_unit.microcycle) ∧
  workRemaining m.arithmetic_unit.work =
    aluSched m.control_unit.microcycle m.control_unit.instruction ∧
  memWorkRemaining m.memory_unit.work =
    memSched m.control_unit.microcycle m.control_unit.instruction ∧
  m.control_unit.status.tra = false

/-! ## Definitions: number-literal parsing model (src/assembly/parser.rs) -/

/-- Little-endian decimal digits with explicit fuel (10 digits suffice for
every `u32`-ranged literal the decimal lexer accepts). -/
def decDigitsRevAux : Nat → Nat → List Nat
  | 0, _ => []
  | fuel + 1, n => if n = 0 then [] else n % 10 :: decDigitsRevAux fuel (n / 10)

/-- The decimal-digit string (most significant first) of a natural number
below `10 ^ 10`. -/
def decimalDigits (n : Nat) : List Nat :=
  if n = 0 then [0] else (decDigitsRevAux 10 n).reverse

/-- Value of a little-endian digit list. -/
def valLE (digits : List Nat) : Nat :=
  match digits with
  | [] => 0
  | d :: rest => d + 10 * valLE rest

/-- Model of `u32::from_str_radix(s, 10)` on a digit string (most
significant first): the accumulated value when it fits in a `u32` (the
checked accumulation of the source overflows exactly when the final value
does, since the accumulator is monotone). -/
def from_str_radix_dec (ds : List Nat) : Option Nat :=
  let v := ds.foldl (fun a d => a * 10 + d) 0
  if v < 2 ^ 32 then some v else none

/-- Model of the `word_token` decimal branch: an optional sign followed by
1..10 decimal digits (`take_while_m_n(1, 10, is_digit)`), folded exactly
as the closure in `word_token` does: a negative nonzero literal up to
`0x80000000` becomes its two's complement (`!num + 1` on `u32`), anything
larger fails, non-negative values pass through. -/
def word_token_dec_model (sign : Option Char) (ds : List Nat) : Option Nat :=
  if 1 ≤ ds.length ∧ ds.length ≤ 10 ∧ ds.all (fun d => d < 10) then
    match from_str_radix_dec ds with
    | none => none
    | some num =>
      if sign = some '-' ∧ num > 0 then
        if num ≤ 0x80000000 then some ((0xFFFFFFFF - num + 1) % 2 ^ 32) else none
      else some num
  else none

/-- Two's-complement signed reading of a 32-bit word. -/
def toSigned (w : Nat) : Int :=
  if w < 2 ^ 31 then (w : Int) else (w : Int) - 2 ^ 32

/-- The sign character the decimal representation of an integer carries. -/
def decimalSign (n : Int) : Option Char :=
  if n < 0 then some '-' else none

/-! ## Definitions: unused-label diagnostics model (src/assembly/assembler.rs) -/

/-- Parser address tokens, as far as `find_unused_labels` inspects them. -/
inductive AddressToken where
  | address (w : Nat)
  | label (device : Option String) (name : String)
  deriving DecidableEq, Repr

/-- Parser instruction tokens (operands as in `InstructionToken`). -/
inductive InstructionToken where
  | add (a : AddressToken)
  | and (a : AddressToken)
  | or (a : AddressToken)
  | xor (a : AddressToken)
  | loadValue (a : AddressToken)
  | storeValue (a : AddressToken)
  | loadConstant (w : Nat)
  | jump (a : AddressToken)
  | jumpIfNegative (a : AddressToken)
  | equals (a : AddressToken)
  | halt
  | not
  | rotateRight (w : Nat)
  | noOperation
  deriving DecidableEq, Repr

inductive StatementContentToken where
  | data (word : Nat) (times : Option Nat)
  | instruction (i : InstructionToken)
  deriving DecidableEq, Repr

structure StatementToken where
  line_number : Nat
  label_defs : List (Option String × String)
  content : Option StatementContentToken
  deriving DecidableEq, Repr

/-- The address operand of an instruction token; mirrors the big `|`
pattern in `find_unused_labels` (LDC, RAR, HLT, NOT, NOP have none). -/
def instruction_addr_token : InstructionToken → Option AddressToken
  | .add a | .and a | .or a | .xor a | .loadValue a | .storeValue a
  | .jump a | .jumpIfNegative a | .equals a => some a
  | _ => none

/-- `ObjectCode::find_unused_labels`, with the hash-map traversal order
made explicit: `label_map` is the entry list `(name, line_number,
address)` in whatever (unspecified, seed-dependent) order the Rust
`HashMap` iterator yields it; referenced local labels are removed, and
one diagnostic `(line_number, name)` is emitted per remaining entry in
traversal order — the source performs no sort. -/
def find_unused_labels (program : List StatementToken)
    (label_map : List (String × Nat × Nat)) : List (Nat × String) :=
  let remaining := program.foldl
    (fun map stmt =>
      match stmt.content with
      | some (.instruction i) =>
        match instruction_addr_token i with
        | some (.label _ name) => map.filter (fun e => e.1 ≠ name)
        | _ => map
      | _ => map)
    label_map
  remaining.map (fun e => (e.2.1, e.1))

/-- The two-statement program `a: NOP` / `b: HLT` (both labels unused). -/
def c9Program : List StatementToken :=
  [⟨0, [(none, "a")], some (.instruction .noOperation)⟩,
   ⟨1, [(none, "b")], some (.instruction .halt)⟩]

/-- Object code with one LDV placeholder word and one external symbol at
instruction address 0 (as emitted for `LDV dev.out`). -/
def c7Code : ObjectCode := ⟨[0x4FFFFFFF], [⟨0, "dev", "out"⟩]⟩

/-- Rotate-right of a 32-bit word as §4.3 of the spec words it: rotate
`x` right by `y mod 32` bit positions (comparison definition for claim
C3, written from the spec, not from the source). -/
def spec_rotate_right (x y : Nat) : Nat :=
  let rot := y % 32
  (x >>> rot) ||| ((x <<< (32 - rot)) % 2 ^ 32)

/-- The descriptor `perform_microcycle` will process in the current state
(the source looks it up after the two polls, which do not touch the
control unit, so this matches the selection in `Mima::perform_microcycle`). -/
def currentDescriptor (m : Mima) : Descriptor :=
  match m.control_unit.instruction with
  | some instruction => execute_descriptor m.control_unit.microcycle instruction
  | none => fetch_descriptor m.control_unit.microcycle

/-! ## Theorems: bit-level helpers -/

/-- Low 28-bit mask is reduction mod `2 ^ 28` (the mask `0x0FFFFFFF`). -/
theorem and_mask28 (x : Nat) : x &&& 0x0FFFFFFF = x % 2 ^ 28 := by
  have h := Nat.and_pow_two_sub_one_eq_mod x 28
  norm_num at h
  exact h

/-- Low 24-bit mask is reduction mod `2 ^ 24` (the mask `0x00FFFFFF`). -/
theorem and_mask24 (x : Nat) : x &&& 0x00FFFFFF = x % 2 ^ 24 := by
  have h := Nat.and_pow_two_sub_one_eq_mod x 24
  norm_num at h
  exact h

theorem shr_eq_div (x n : Nat) : x >>> n = x / 2 ^ n :=
  Nat.shiftRight_eq_div_pow x n

theorem shl_eq_mul (x n : Nat) : x <<< n = x * 2 ^ n :=
  Nat.shiftLeft_eq x n

/-- Masking out bits above position 24 distributes over a `2 ^ 24` split. -/
theorem and_high24 (a b m : Nat) (hb : b < 2 ^ 24) :
    (2 ^ 24 * a + b) &&& (2 ^ 24 * m) = 2 ^ 24 * (a &&& m) := by
  apply Nat.eq_of_testBit_eq
  intro j
  rw [Nat.testBit_and, Nat.testBit_mul_pow_two_add a hb,
    Nat.testBit_mul_pow_two, Nat.testBit_mul_pow_two, Nat.testBit_and]
  rcases Nat.lt_or_ge j 24 with h | h
  · simp [h, show ¬24 ≤ j by omega]
  · simp [show ¬j < 24 by omega, show 24 ≤ j by omega, Bool.and_assoc]

/-- The sub-opcode mask `0x0F000000` extracts bits 24..27. -/
theorem and_submask (x : Nat) : x &&& 0x0F000000 = 2 ^ 24 * (x / 2 ^ 24 % 16) := by
  have hdm := Nat.div_add_mod x (2 ^ 24)
  have hx : x = 2 ^ 24 * (x / 2 ^ 24) + x % 2 ^ 24 := by omega
  have hm : (0x0F000000 : Nat) = 2 ^ 24 * 15 := by norm_num
  calc x &&& 0x0F000000
      = (2 ^ 24 * (x / 2 ^ 24) + x % 2 ^ 24) &&& (2 ^ 24 * 15) := by rw [← hx, hm]
    _ = 2 ^ 24 * (x / 2 ^ 24 &&& 15) := and_high24 _ _ _ (Nat.mod_lt _ (by norm_num))
    _ = 2 ^ 24 * (x / 2 ^ 24 % 16) := by
        rw [show (15 : Nat) = 2 ^ 4 - 1 by norm_num, show (16 : Nat) = 2 ^ 4 by norm_num,
          Nat.and_pow_two_sub_one_eq_mod]

/-- A bit-or of a high part over a value below `2 ^ n` is plain addition. -/
theorem or_low (a b n : Nat) (hb : b < 2 ^ n) : (2 ^ n * a) ||| b = 2 ^ n * a + b :=
  (Nat.mul_add_lt_is_or hb a).symm

theorem encode_basic (op pl : Nat) (hpl : pl < 2 ^ 28) :
    (op <<< 28) ||| pl = 2 ^ 28 * op + pl := by
  rw [shl_eq_mul, Nat.mul_comm, or_low _ _ _ hpl]

/-! ## Theorems: codec -/

/-- Arithmetic re-statement of `decode` (shifts and masks as division and
remainder). -/
theorem decode_eq (w : Nat) :
    decode w =
      if w / 2 ^ 28 ≠ 15 then
        if w / 2 ^ 28 = 0 then .add (w % 2 ^ 28)
        else if w / 2 ^ 28 = 1 then .and (w % 2 ^ 28)
        else if w / 2 ^ 28 = 2 then .or (w % 2 ^ 28)
        else if w / 2 ^ 28 = 3 then .xor (w % 2 ^ 28)
        else if w / 2 ^ 28 = 4 then .loadValue (w % 2 ^ 28)
        else if w / 2 ^ 28 = 5 then .storeValue (w % 2 ^ 28)
        else if w / 2 ^ 28 = 6 then .loadConstant (w % 2 ^ 28)
        else if w / 2 ^ 28 = 7 then .jump (w % 2 ^ 28)
        else if w / 2 ^ 28 = 8 then .jumpIfNegative (w % 2 ^ 28)
        else if w / 2 ^ 28 = 9 then .equals (w % 2 ^ 28)
        else .noOperation
      else
        if w / 2 ^ 24 % 16 = 0 then .halt
        else if w / 2 ^ 24 % 16 = 1 then .not
        else if w / 2 ^ 24 % 16 = 2 then .rotateRight (w % 2 ^ 24)
        else .noOperation := by
  simp only [decode]
  rw [shr_eq_div, and_mask28, and_mask24, and_submask, shr_eq_div,
    Nat.mul_div_cancel_left _ (show 0 < 2 ^ 24 by norm_num)]

theorem decode_encode_basic (k pl : Nat) (hpl : pl < 2 ^ 28) (hk : k < 15) :
    decode ((k <<< 28) ||| pl) =
      if k = 0 then .add pl else if k = 1 then .and pl else if k = 2 then .or pl
      else if k = 3 then .xor pl else if k = 4 then .loadValue pl
      else if k = 5 then .storeValue pl else if k = 6 then .loadConstant pl
      else if k = 7 then .jump pl else if k = 8 then .jumpIfNegative pl
      else if k = 9 then .equals pl else .noOperation := by
  rw [encode_basic _ _ hpl, decode_eq]
  have h1 : (2 ^ 28 * k + pl) / 2 ^ 28 = k := by omega
  have h2 : (2 ^ 28 * k + pl) % 2 ^ 28 = pl := by omega
  rw [h1, h2, if_pos (by omega)]

theorem decode_encode_rar (pl : Nat) (hpl : pl < 2 ^ 24) :
    decode (0xF0000000 ||| (0x02 <<< 24) ||| pl) = .rotateRight pl := by
  have h : (0xF0000000 : Nat) ||| (0x02 <<< 24) = 2 ^ 24 * 0xF2 := by decide
  rw [h, or_low _ _ _ hpl, decode_eq]
  have h1 : (2 ^ 24 * 0xF2 + pl) / 2 ^ 28 = 15 := by omega
  have h2 : (2 ^ 24 * 0xF2 + pl) / 2 ^ 24 % 16 = 2 := by omega
  have h3 : (2 ^ 24 * 0xF2 + pl) % 2 ^ 24 = pl := by omega
  rw [h1, h2, h3]
  norm_num

/-- Claim C2: for every `Instruction` whose payload is in range for its
format (28 bits for the ten basic-format instructions, 24 bits for RAR),
decoding the encoded word yields the original instruction. -/
theorem claim_c2_decode_encode (i : Instruction) (h : payloadInRange i) :
    decode (encode i) = i := by
  cases i with
  | add pl => rw [show encode (.add pl) = (0x00 <<< 28) ||| pl from rfl,
      decode_encode_basic 0 pl h (by omega)]; norm_num
  | and pl => rw [show encode (.and pl) = (0x01 <<< 28) ||| pl from rfl,
      decode_encode_basic 1 pl h (by omega)]; norm_num
  | or pl => rw [show encode (.or pl) = (0x02 <<< 28) ||| pl from rfl,
      decode_encode_basic 2 pl h (by omega)]; norm_num
  | xor pl => rw [show encode (.xor pl) = (0x03 <<< 28) ||| pl from rfl,
      decode_encode_basic 3 pl h (by omega)]; norm_num
  | loadValue pl => rw [show encode (.loadValue pl) = (0x04 <<< 28) ||| pl from rfl,
      decode_encode_basic 4 pl h (by omega)]; norm_num
  | storeValue pl => rw [show encode (.storeValue pl) = (0x05 <<< 28) ||| pl from rfl,
      decode_encode_basic 5 pl h (by omega)]; norm_num
  | loadConstant pl => rw [show encode (.loadConstant pl) = (0x06 <<< 28) ||| pl from rfl,
      decode_encode_basic 6 pl h (by omega)]; norm_num
  | jump pl => rw [show encode (.jump pl) = (0x07 <<< 28) ||| pl from rfl,
      decode_encode_basic 7 pl h (by omega)]; norm_num
  | jumpIfNegative pl => rw [show encode (.jumpIfNegative pl) = (0x08 <<< 28) ||| pl from rfl,
      decode_encode_basic 8 pl h (by omega)]; norm_num
  | equals pl => rw [show encode (.equals pl) = (0x09 <<< 28) ||| pl from rfl,
      decode_encode_basic 9 pl h (by omega)]; norm_num
  | halt => decide
  | not => decide
  | rotateRight pl => rw [show encode (.rotateRight pl) = 0xF0000000 ||| (0x02 <<< 24) ||| pl
      from rfl, decode_encode_rar pl h]
  | noOperation => decide

/-- Claim C2 witness: the round trip at the concrete instruction ADD 5. -/
theorem claim_c2_witness : decode (encode (.add 5)) = Instruction.add 5 :=
  claim_c2_decode_encode (.add 5) (show (5 : Nat) < 2 ^ 28 by norm_num)

/-- Claim C10: every 32-bit word whose opcode nibble lies in 0xA..0xE
(basic format, but no assigned basic opcode) decodes to NOP. -/
theorem claim_c10_unassigned_basic_nop (w : Nat) (h32 : w < 2 ^ 32)
    (hlo : 10 ≤ w >>> 28) (hhi : w >>> 28 ≤ 14) : decode w = .noOperation := by
  rw [shr_eq_div] at hlo hhi
  rw [decode_eq, if_pos (show w / 2 ^ 28 ≠ 15 by omega)]
  repeat rw [if_neg (by omega)]

/-- Claim C10 witness: the word `0xA0000001` decodes to NOP. -/
theorem claim_c10_witness : decode 0xA0000001 = Instruction.noOperation :=
  claim_c10_unassigned_basic_nop 0xA0000001 (by norm_num) (by decide) (by decide)

/-- Claim C6 counterexample: the word `0xA0000000` has opcode `0xA`, so it
is not covered by the claim's exception (opcode `0xF` with an unknown
sub-opcode), yet `encode (decode w)` does not give back `w`. -/
theorem claim_c6_counterexample :
    encode (decode 0xA0000000) ≠ 0xA0000000 ∧ (0xA0000000 : Nat) >>> 28 ≠ 15 := by
  decide

/-- Claim C6 (amended): for every 32-bit word, `encode (decode w)` equals
`roundTripWord w` — that is, `w` itself for the assigned basic opcodes
0x0..0x9 and for the RAR sub-opcode; the HLT/NOT/NOP encodings with their
payload bits cleared for sub-opcodes 0, 1, 0xF; and the NOP encoding
`0xFF000000` for the unassigned basic opcodes 0xA..0xE and the unknown
extended sub-opcodes. -/
theorem claim_c6_word_round_trip (w : Nat) (h32 : w < 2 ^ 32) :
    encode (decode w) = roundTripWord w := by
  have hsub : (w &&& 0x0F000000) >>> 24 = w / 2 ^ 24 % 16 := by
    rw [and_submask, shr_eq_div, Nat.mul_div_cancel_left _ (show 0 < 2 ^ 24 by norm_num)]
  rw [decode_eq, roundTripWord, hsub, shr_eq_div]
  obtain ⟨k, hk⟩ : ∃ k, w / 2 ^ 28 = k := ⟨_, rfl⟩
  rw [hk]
  have hk16 : k < 16 := by omega
  interval_cases k
  · norm_num
    rw [show encode (Instruction.add (w % 268435456)) = (0x00 <<< 28) ||| (w % 268435456) from rfl,
      encode_basic _ _ (by omega)]
    omega
  · norm_num
    rw [show encode (Instruction.and (w % 268435456)) = (0x01 <<< 28) ||| (w % 268435456) from rfl,
      encode_basic _ _ (by omega)]
    omega
  · norm_num
    rw [show encode (Instruction.or (w % 268435456)) = (0x02 <<< 28) ||| (w % 268435456) from rfl,
      encode_basic _ _ (by omega)]
    omega
  · norm_num
    rw [show encode (Instruction.xor (w % 268435456)) = (0x03 <<< 28) ||| (w % 268435456) from rfl,
      encode_basic _ _ (by omega)]
    omega
  · norm_num
    rw [show encode (Instruction.loadValue (w % 268435456)) = (0x04 <<< 28) ||| (w % 268435456)
      from rfl, encode_basic _ _ (by omega)]
    omega
  · norm_num
    rw [show encode (Instruction.storeValue (w % 268435456)) = (0x05 <<< 28) ||| (w % 268435456)
      from rfl, encode_basic _ _ (by omega)]
    omega
  · norm_num
    rw [show encode (Instruction.loadConstant (w % 268435456)) = (0x06 <<< 28) ||| (w % 268435456)
      from rfl, encode_basic _ _ (by omega)]
    omega
  · norm_num
    rw [show encode (Instruction.jump (w % 268435456)) = (0x07 <<< 28) ||| (w % 268435456) from rfl,
      encode_basic _ _ (by omega)]
    omega
  · norm_num
    rw [show encode (Instruction.jumpIfNegative (w % 268435456)) = (0x08 <<< 28) ||| (w % 268435456)
      from rfl, encode_basic _ _ (by omega)]
    omega
  · norm_num
    rw [show encode (Instruction.equals (w % 268435456)) = (0x09 <<< 28) ||| (w % 268435456)
      from rfl, encode_basic _ _ (by omega)]
    omega
  · norm_num; decide
  · norm_num; decide
  · norm_num; decide
  · norm_num; decide
  · norm_num; decide
  · norm_num
    obtain ⟨s, hs⟩ : ∃ s, w / 16777216 % 16 = s := ⟨_, rfl⟩
    rw [hs]
    have hs16 : s < 16 := by omega
    interval_cases s
    · norm_num; decide
    · norm_num; decide
    · norm_num
      rw [show encode (Instruction.rotateRight (w % 16777216)) =
        0xF0000000 ||| (0x02 <<< 24) ||| (w % 16777216) from rfl,
        show (0xF0000000 : Nat) ||| (0x02 <<< 24) = 2 ^ 24 * 0xF2 from by decide,
        or_low _ _ _ (by omega)]
      omega
    all_goals norm_num; decide

/-- Claim C6 witness: the amended round trip at the counterexample word. -/
theorem claim_c6_witness : encode (decode 0xA0000000) = roundTripWord 0xA0000000 :=
  claim_c6_word_round_trip 0xA0000000 (by norm_num)

/-- Claim C3: the source finalizes a RotateRight work item with
`(x >> rot) | (x << rot)` instead of a true rotate.  At the S6 snapshots
`X_s = 0xFFFFFFFE`, `Y_s = 1` the code commits `0xFFFFFFFF` to Z, while
rotating `X_s` right by `Y_s mod 32 = 1` (the spec's §4.3 semantics,
`spec_rotate_right`) gives `0x7FFFFFFF`. -/
theorem claim_c3_rar_code_bug :
    (ArithmeticUnit.new.finalize_work ⟨.rotateRight, 0xFFFFFFFE, 1, 0⟩).z = 0xFFFFFFFF ∧
    spec_rotate_right 0xFFFFFFFE 1 = 0x7FFFFFFF ∧
    (ArithmeticUnit.new.finalize_work ⟨.rotateRight, 0xFFFFFFFE, 1, 0⟩).z ≠
      spec_rotate_right 0xFFFFFFFE 1 := by
  decide

/-- Claim C7: `load_code` combines the resolved device address into the
placeholder word with `&=`, which zeroes the opcode nibble instead of
leaving it unchanged: loading one LDV placeholder word `0x4FFFFFFF` with
a symbol at address 0 leaves `0x0FFFFFFF` in memory — the low 28 bits are
the (masked) device address, but the upper four bits became 0 instead of
staying 4. -/
theorem claim_c7_load_code_clobbers_opcode :
    (MemoryUnit.new.load_code c7Code).linear_memory 0 = 0x0FFFFFFF ∧
    (MemoryUnit.new.load_code c7Code).linear_memory 0 &&& 0x0FFFFFFF =
      (0x0FFFFFFF &&& 0x0FFFFFFF : Nat) ∧
    (MemoryUnit.new.load_code c7Code).linear_memory 0 >>> 28 = 0 ∧
    (0x4FFFFFFF : Nat) >>> 28 = 4 := by
  decide

/-- Claim C9: `find_unused_labels` emits diagnostics in the traversal
order of the Rust `HashMap` (which is unspecified and seed-dependent)
without sorting: for the program `a: NOP` / `b: HLT` (both labels
unused), the traversal order `[b, a]` — which the map may legally yield —
produces the diagnostics `[(line 1, b), (line 0, a)]`, not ordered by
line number, while the order `[a, b]` produces the sorted list. -/
theorem claim_c9_diagnostics_follow_map_order :
    find_unused_labels c9Program [("b", 1, 1), ("a", 0, 0)] = [(1, "b"), (0, "a")] ∧
    find_unused_labels c9Program [("a", 0, 0), ("b", 1, 1)] = [(0, "a"), (1, "b")] ∧
    ¬(1 : Nat) ≤ 0 := by
  decide

set_option maxHeartbeats 1000000

attribute [simp] Mima.step Mima.perform_microcycle Mima.process_microcycle_descriptor
  Mima.perform_bus_xfer Mima.perform_alu_signal Mima.bus_source_value Mima.write_bus_dest
  ArithmeticUnit.poll_work ArithmeticUnit.signal_alu ArithmeticUnit.finalize_work
  MemoryUnit.poll_work MemoryUnit.signal_memory MemoryUnit.finalize_work_linear
  MemoryUnit.finalize_work_device_io ControlUnit.end_microcycle
  fetch_descriptor execute_descriptor descriptor_add descriptor_and descriptor_or
  descriptor_xor descriptor_load_value descriptor_store_value descriptor_load_constant
  descriptor_jump descriptor_jump_if_negative descriptor_equals descriptor_halt
  descriptor_not descriptor_rotate_right descriptor_no_operation
  Descriptor.empty empty_desc Descriptor.with_bus_xfer Descriptor.with_masked_bus_xfer
  Descriptor.acc_dependent Descriptor.with_alu_op Descriptor.with_mem_access BusXfer.new
  RegSet.contains RegSet.union RegSet.ACC RegSet.ONE RegSet.X RegSet.Y RegSet.Z
  RegSet.IAR RegSet.IR RegSet.SAR RegSet.SIR ALL_REGISTERS
  MICROCYCLES_PER_OP MICROCYCLES_PER_ACCESS

theorem pms_arith (m : Mima) (a : MemoryAccess) :
    (m.perform_mem_signal a).arithmetic_unit = m.arithmetic_unit := by
  unfold Mima.perform_mem_signal
  cases hx : MemoryType.from_address m.memory_unit.sar <;>
    simp [ControlUnit.start_xfer, ControlUnit.stop_xfer]

theorem pms_mc (m : Mima) (a : MemoryAccess) :
    (m.perform_mem_signal a).control_unit.microcycle = m.control_unit.microcycle := by
  unfold Mima.perform_mem_signal
  cases hx : MemoryType.from_address m.memory_unit.sar <;>
    simp [ControlUnit.start_xfer, ControlUnit.stop_xfer]

theorem pms_instr (m : Mima) (a : MemoryAccess) :
    (m.perform_mem_signal a).control_unit.instruction = m.control_unit.instruction := by
  unfold Mima.perform_mem_signal
  cases hx : MemoryType.from_address m.memory_unit.sar <;>
    simp [ControlUnit.start_xfer, ControlUnit.stop_xfer]

theorem pms_run (m : Mima) (a : MemoryAccess) :
    (m.perform_mem_signal a).control_unit.status.run = m.control_unit.status.run := by
  unfold Mima.perform_mem_signal
  cases hx : MemoryType.from_address m.memory_unit.sar <;>
    simp [ControlUnit.start_xfer, ControlUnit.stop_xfer]

theorem pms_tra (m : Mima) (a : MemoryAccess) (h : m.control_unit.status.tra = false) :
    (m.perform_mem_signal a).control_unit.status.tra = false := by
  unfold Mima.perform_mem_signal
  cases hx : MemoryType.from_address m.memory_unit.sar <;>
    simp [ControlUnit.start_xfer, ControlUnit.stop_xfer, h]

theorem pms_memwork (m : Mima) (a : MemoryAccess) :
    (m.perform_mem_signal a).memory_unit.work =
      some ⟨MemoryType.from_address m.memory_unit.sar, a, m.memory_unit.sar,
        m.memory_unit.sir, MICROCYCLES_PER_ACCESS⟩ := by
  unfold Mima.perform_mem_signal
  cases hx : MemoryType.from_address m.memory_unit.sar <;>
    simp [ControlUnit.start_xfer, ControlUnit.stop_xfer, MemoryUnit.signal_memory, hx]

attribute [simp] pms_arith pms_mc pms_instr pms_run pms_tra pms_memwork

theorem aluSched_six (i : Instruction) : aluSched 6 (some i) = none := by cases i <;> rfl

theorem memSched_six (i : Instruction) : memSched 6 (some i) = none := by cases i <;> rfl


theorem workRemaining_eq_none {aw : Option ALUWork} (h : workRemaining aw = none) :
    aw = none := by
  cases aw with
  | none => rfl
  | some w => simp [workRemaining] at h

theorem workRemaining_eq_some {aw : Option ALUWork} {r : Nat}
    (h : workRemaining aw = some r) : ∃ op wx wy, aw = some ⟨op, wx, wy, r⟩ := by
  cases aw with
  | none => simp [workRemaining] at h
  | some w =>
    obtain ⟨op, wx, wy, rem⟩ := w
    simp [workRemaining] at h
    exact ⟨op, wx, wy, by rw [h]⟩

theorem memWorkRemaining_eq_none {mw : Option MemoryWork} (h : memWorkRemaining mw = none) :
    mw = none := by
  cases mw with
  | none => rfl
  | some w => simp [memWorkRemaining] at h

theorem memWorkRemaining_eq_some {mw : Option MemoryWork} {r : Nat}
    (h : memWorkRemaining mw = some r) :
    ∃ mt macc wsar wsir, mw = some ⟨mt, macc, wsar, wsir, r⟩ := by
  cases mw with
  | none => simp [memWorkRemaining] at h
  | some w =>
    obtain ⟨mt, macc, wsar, wsir, rem⟩ := w
    simp [memWorkRemaining] at h
    exact ⟨mt, macc, wsar, wsir, by rw [h]⟩

attribute [simp] aluSched_six memSched_six

theorem inv_step (m : Mima) (h : Inv m) : Inv m.step := by
  obtain ⟨au, cu, mu⟩ := m
  obtain ⟨iar, ir, st, mc, instr⟩ := cu
  obtain ⟨run, tra⟩ := st
  obtain ⟨acc, one, x, y, z, aw⟩ := au
  obtain ⟨sar, sir, mw, mem⟩ := mu
  obtain ⟨hmc1, hmc2, hinstr, halu, hmem, htra⟩ := h
  simp only at hmc1 hmc2 hinstr halu hmem htra
  subst htra
  cases run
  case false =>
    simp only [Mima.step, Mima.perform_microcycle]
    exact ⟨hmc1, hmc2, hinstr, halu, hmem, rfl⟩
  case true =>
    interval_cases mc
    · cases instr with
      | some i => simp at hinstr
      | none =>
        simp only [aluSched, memSched] at halu hmem
        norm_num at halu hmem
        have haw := workRemaining_eq_none halu
        subst haw
        have hmw := memWorkRemaining_eq_none hmem
        subst hmw
        simp [Inv, workRemaining, memWorkRemaining, aluSched, memSched]
    · cases instr with
      | some i => simp at hinstr
      | none =>
        simp only [aluSched, memSched] at halu hmem
        norm_num at halu hmem
        have haw := workRemaining_eq_none halu
        subst haw
        obtain ⟨mt, macc, wsar, wsir, hmw⟩ := memWorkRemaining_eq_some hmem
        subst hmw
        simp [Inv, workRemaining, memWorkRemaining, aluSched, memSched]
    · cases instr with
      | some i => simp at hinstr
      | none =>
        simp only [aluSched, memSched] at halu hmem
        norm_num at halu hmem
        obtain ⟨op, wx, wy, haw⟩ := workRemaining_eq_some halu
        subst haw
        obtain ⟨mt, macc, wsar, wsir, hmw⟩ := memWorkRemaining_eq_some hmem
        subst hmw
        simp [Inv, workRemaining, memWorkRemaining, aluSched, memSched]
    · cases instr with
      | some i => simp at hinstr
      | none =>
        simp only [aluSched, memSched] at halu hmem
        norm_num at halu hmem
        obtain ⟨op, wx, wy, haw⟩ := workRemaining_eq_some halu
        subst haw
        obtain ⟨mt, macc, wsar, wsir, hmw⟩ := memWorkRemaining_eq_some hmem
        subst hmw
        simp [Inv, workRemaining, memWorkRemaining, aluSched, memSched]
    · cases instr with
      | some i => simp at hinstr
      | none =>
        simp only [aluSched, memSched] at halu hmem
        norm_num at halu hmem
        have haw := workRemaining_eq_none halu
        subst haw
        obtain ⟨mt, macc, wsar, wsir, hmw⟩ := memWorkRemaining_eq_some hmem
        subst hmw
        cases mt <;> cases macc <;> simp [Inv, workRemaining, memWorkRemaining, aluSched_six, memSched_six]
    · cases instr with
      | none => simp at hinstr
      | some i =>
        cases i with
        | add pl =>
          simp only [aluSched, memSched] at halu hmem
          norm_num at halu hmem
          have haw := workRemaining_eq_none halu
          subst haw
          have hmw := memWorkRemaining_eq_none hmem
          subst hmw
          simp [Inv, workRemaining, memWorkRemaining, aluSched, memSched]
        | and pl =>
          simp only [aluSched, memSched] at halu hmem
          norm_num at halu hmem
          have haw := workRemaining_eq_none halu
          subst haw
          have hmw := memWorkRemaining_eq_none hmem
          subst hmw
          simp [Inv, workRemaining, memWorkRemaining, aluSched, memSched]
        | or pl =>
          simp only [aluSched, memSched] at halu hmem
          norm_num at halu hmem
          have haw := workRemaining_eq_none halu
          subst haw
          have hmw := memWorkRemaining_eq_none hmem
          subst hmw
          simp [Inv, workRemaining, memWorkRemaining, aluSched, memSched]
        | xor pl =>
          simp only [aluSched, memSched] at halu hmem
          norm_num at halu hmem
          have haw := workRemaining_eq_none halu
          subst haw
          have hmw := memWorkRemaining_eq_none hmem
          subst hmw
          simp [Inv, workRemaining, memWorkRemaining, aluSched, memSched]
        | loadValue pl =>
          simp only [aluSched, memSched] at halu hmem
          norm_num at hmem
          have haw := workRemaining_eq_none halu
          subst haw
          have hmw := memWorkRemaining_eq_none hmem
          subst hmw
          simp [Inv, workRemaining, memWorkRemaining, aluSched, memSched]
        | storeValue pl =>
          simp only [aluSched, memSched] at halu hmem
          norm_num at hmem
          have haw := workRemaining_eq_none halu
          subst haw
          have hmw := memWorkRemaining_eq_none hmem
          subst hmw
          simp [Inv, workRemaining, memWorkRemaining, aluSched, memSched]
        | loadConstant pl =>
          simp only [aluSched, memSched] at halu hmem
          have haw := workRemaining_eq_none halu
          subst haw
          have hmw := memWorkRemaining_eq_none hmem
          subst hmw
          simp [Inv, workRemaining, memWorkRemaining, aluSched, memSched]
        | jump pl =>
          simp only [aluSched, memSched] at halu hmem
          have haw := workRemaining_eq_none halu
          subst haw
          have hmw := memWorkRemaining_eq_none hmem
          subst hmw
          simp [Inv, workRemaining, memWorkRemaining, aluSched, memSched]
        | jumpIfNegative pl =>
          simp only [aluSched, memSched] at halu hmem
          have haw := workRemaining_eq_none halu
          subst haw
          have hmw := memWorkRemaining_eq_none hmem
          subst hmw
          by_cases hacc : acc &&& 2147483648 = 0 <;>
            simp [Inv, workRemaining, memWorkRemaining, aluSched, memSched, hacc]
        | equals pl =>
          simp only [aluSched, memSched] at halu hmem
          norm_num at halu hmem
          have haw := workRemaining_eq_none halu
          subst haw
          have hmw := memWorkRemaining_eq_none hmem
          subst hmw
          simp [Inv, workRemaining, memWorkRemaining, aluSched, memSched]
        | halt =>
          simp only [aluSched, memSched] at halu hmem
          have haw := workRemaining_eq_none halu
          subst haw
          have hmw := memWorkRemaining_eq_none hmem
          subst hmw
          simp [Inv, workRemaining, memWorkRemaining, aluSched, memSched]
        | not =>
          simp only [aluSched, memSched] at halu hmem
          norm_num at halu
          have haw := workRemaining_eq_none halu
          subst haw
          have hmw := memWorkRemaining_eq_none hmem
          subst hmw
          simp [Inv, workRemaining, memWorkRemaining, aluSched, memSched]
        | rotateRight pl =>
          simp only [aluSched, memSched] at halu hmem
          norm_num at halu
          have haw := workRemaining_eq_none halu
          subst haw
          have hmw := memWorkRemaining_eq_none hmem
          subst hmw
          simp [Inv, workRemaining, memWorkRemaining, aluSched, memSched]
        | noOperation =>
          simp only [aluSched, memSched] at halu hmem
          have haw := workRemaining_eq_none halu
          subst haw
          have hmw := memWorkRemaining_eq_none hmem
          subst hmw
          simp [Inv, workRemaining, memWorkRemaining, aluSched, memSched]
    · cases instr with
      | none => simp at hinstr
      | some i =>
        cases i with
        | add pl =>
          simp only [aluSched, memSched] at halu hmem
          norm_num at halu hmem
          have haw := workRemaining_eq_none halu
          subst haw
          obtain ⟨mt, macc, wsar, wsir, hmw⟩ := memWorkRemaining_eq_some hmem
          subst hmw
          simp [Inv, workRemaining, memWorkRemaining, aluSched, memSched]
        | and pl =>
          simp only [aluSched, memSched] at halu hmem
          norm_num at halu hmem
          have haw := workRemaining_eq_none halu
          subst haw
          obtain ⟨mt, macc, wsar, wsir, hmw⟩ := memWorkRemaining_eq_some hmem
          subst hmw
          simp [Inv, workRemaining, memWorkRemaining, aluSched, memSched]
        | or pl =>
          simp only [aluSched, memSched] at halu hmem
          norm_num at halu hmem
          have haw := workRemaining_eq_none halu
          subst haw
          obtain ⟨mt, macc, wsar, wsir, hmw⟩ := memWorkRemaining_eq_some hmem
          subst hmw
          simp [Inv, workRemaining, memWorkRemaining, aluSched, memSched]
        | xor pl =>
          simp only [aluSched, memSched] at halu hmem
          norm_num at halu hmem
          have haw := workRemaining_eq_none halu
          subst haw
          obtain ⟨mt, macc, wsar, wsir, hmw⟩ := memWorkRemaining_eq_some hmem
          subst hmw
          simp [Inv, workRemaining, memWorkRemaining, aluSched, memSched]
        | loadValue pl =>
          simp only [aluSched, memSched] at halu hmem
          norm_num at hmem
          have haw := workRemaining_eq_none halu
          subst haw
          obtain ⟨mt, macc, wsar, wsir, hmw⟩ := memWorkRemaining_eq_some hmem
          subst hmw
          simp [Inv, workRemaining, memWorkRemaining, aluSched, memSched]
        | storeValue pl =>
          simp only [aluSched, memSched] at halu hmem
          norm_num at hmem
          have haw := workRemaining_eq_none halu
          subst haw
          have hmw := memWorkRemaining_eq_none hmem
          subst hmw
          simp [Inv, workRemaining, memWorkRemaining, aluSched, memSched]
        | loadConstant pl =>
          simp only [aluSched, memSched] at halu hmem
          have haw := workRemaining_eq_none halu
          subst haw
          have hmw := memWorkRemaining_eq_none hmem
          subst hmw
          simp [Inv, workRemaining, memWorkRemaining, aluSched, memSched]
        | jump pl =>
          simp only [aluSched, memSched] at halu hmem
          have haw := workRemaining_eq_none halu
          subst haw
          have hmw := memWorkRemaining_eq_none hmem
          subst hmw
          simp [Inv, workRemaining, memWorkRemaining, aluSched, memSched]
        | jumpIfNegative pl =>
          simp only [aluSched, memSched] at halu hmem
          have haw := workRemaining_eq_none halu
          subst haw
          have hmw := memWorkRemaining_eq_none hmem
          subst hmw
          simp [Inv, workRemaining, memWorkRemaining, aluSched, memSched]
        | equals pl =>
          simp only [aluSched, memSched] at halu hmem
          norm_num at halu hmem
          have haw := workRemaining_eq_none halu
          subst haw
          obtain ⟨mt, macc, wsar, wsir, hmw⟩ := memWorkRemaining_eq_some hmem
          subst hmw
          simp [Inv, workRemaining, memWorkRemaining, aluSched, memSched]
        | halt =>
          simp only [aluSched, memSched] at halu hmem
          have haw := workRemaining_eq_none halu
          subst haw
          have hmw := memWorkRemaining_eq_none hmem
          subst hmw
          simp [Inv, workRemaining, memWorkRemaining, aluSched, memSched]
        | not =>
          simp only [aluSched, memSched] at halu hmem
          norm_num at halu
          obtain ⟨op, wx, wy, haw⟩ := workRemaining_eq_some halu
          subst haw
          have hmw := memWorkRemaining_eq_none hmem
          subst hmw
          simp [Inv, workRemaining, memWorkRemaining, aluSched, memSched]
        | rotateRight pl =>
          simp only [aluSched, memSched] at halu hmem
          norm_num at halu
          have haw := workRemaining_eq_none halu
          subst haw
          have hmw := memWorkRemaining_eq_none hmem
          subst hmw
          simp [Inv, workRemaining, memWorkRemaining, aluSched, memSched]
        | noOperation =>
          simp only [aluSched, memSched] at halu hmem
          have haw := workRemaining_eq_none halu
          subst haw
          have hmw := memWorkRemaining_eq_none hmem
          subst hmw
          simp [Inv, workRemaining, memWorkRemaining, aluSched, memSched]
    · cases instr with
      | none => simp at hinstr
      | some i =>
        cases i with
        | add pl =>
          simp only [aluSched, memSched] at halu hmem
          norm_num at halu hmem
          have haw := workRemaining_eq_none halu
          subst haw
          obtain ⟨mt, macc, wsar, wsir, hmw⟩ := memWorkRemaining_eq_some hmem
          subst hmw
          simp [Inv, workRemaining, memWorkRemaining, aluSched, memSched]
        | and pl =>
          simp only [aluSched, memSched] at halu hmem
          norm_num at halu hmem
          have haw := workRemaining_eq_none halu
          subst haw
          obtain ⟨mt, macc, wsar, wsir, hmw⟩ := memWorkRemaining_eq_some hmem
          subst hmw
          simp [Inv, workRemaining, memWorkRemaining, aluSched, memSched]
        | or pl =>
          simp only [aluSched, memSched] at halu hmem
          norm_num at halu hmem
          have haw := workRemaining_eq_none halu
          subst haw
          obtain ⟨mt, macc, wsar, wsir, hmw⟩ := memWorkRemaining_eq_some hmem
          subst hmw
          simp [Inv, workRemaining, memWorkRemaining, aluSched, memSched]
        | xor pl =>
          simp only [aluSched, memSched] at halu hmem
          norm_num at halu hmem
          have haw := workRemaining_eq_none halu
          subst haw
          obtain ⟨mt, macc, wsar, wsir, hmw⟩ := memWorkRemaining_eq_some hmem
          subst hmw
          simp [Inv, workRemaining, memWorkRemaining, aluSched, memSched]
        | loadValue pl =>
          simp only [aluSched, memSched] at halu hmem
          norm_num at hmem
          have haw := workRemaining_eq_none halu
          subst haw
          obtain ⟨mt, macc, wsar, wsir, hmw⟩ := memWorkRemaining_eq_some hmem
          subst hmw
          simp [Inv, workRemaining, memWorkRemaining, aluSched, memSched]
        | storeValue pl =>
          simp only [aluSched, memSched] at halu hmem
          norm_num at hmem
          have haw := workRemaining_eq_none halu
          subst haw
          obtain ⟨mt, macc, wsar, wsir, hmw⟩ := memWorkRemaining_eq_some hmem
          subst hmw
          simp [Inv, workRemaining, memWorkRemaining, aluSched, memSched]
        | loadConstant pl =>
          simp only [aluSched, memSched] at halu hmem
          have haw := workRemaining_eq_none halu
          subst haw
          have hmw := memWorkRemaining_eq_none hmem
          subst hmw
          simp [Inv, workRemaining, memWorkRemaining, aluSched, memSched]
        | jump pl =>
          simp only [aluSched, memSched] at halu hmem
          have haw := workRemaining_eq_none halu
          subst haw
          have hmw := memWorkRemaining_eq_none hmem
          subst hmw
          simp [Inv, workRemaining, memWorkRemaining, aluSched, memSched]
        | jumpIfNegative pl =>
          simp only [aluSched, memSched] at halu hmem
          have haw := workRemaining_eq_none halu
          subst haw
          have hmw := memWorkRemaining_eq_none hmem
          subst hmw
          simp [Inv, workRemaining, memWorkRemaining, aluSched, memSched]
        | equals pl =>
          simp only [aluSched, memSched] at halu hmem
          norm_num at halu hmem
          have haw := workRemaining_eq_none halu
          subst haw
          obtain ⟨mt, macc, wsar, wsir, hmw⟩ := memWorkRemaining_eq_some hmem
          subst hmw
          simp [Inv, workRemaining, memWorkRemaining, aluSched, memSched]
        | halt =>
          simp only [aluSched, memSched] at halu hmem
          have haw := workRemaining_eq_none halu
          subst haw
          have hmw := memWorkRemaining_eq_none hmem
          subst hmw
          simp [Inv, workRemaining, memWorkRemaining, aluSched, memSched]
        | not =>
          simp only [aluSched, memSched] at halu hmem
          norm_num at halu
          obtain ⟨op, wx, wy, haw⟩ := workRemaining_eq_some halu
          subst haw
          have hmw := memWorkRemaining_eq_none hmem
          subst hmw
          simp [Inv, workRemaining, memWorkRemaining, aluSched, memSched]
        | rotateRight pl =>
          simp only [aluSched, memSched] at halu hmem
          norm_num at halu
          obtain ⟨op, wx, wy, haw⟩ := workRemaining_eq_some halu
          subst haw
          have hmw := memWorkRemaining_eq_none hmem
          subst hmw
          simp [Inv, workRemaining, memWorkRemaining, aluSched, memSched]
        | noOperation =>
          simp only [aluSched, memSched] at halu hmem
          have haw := workRemaining_eq_none halu
          subst haw
          have hmw := memWorkRemaining_eq_none hmem
          subst hmw
          simp [Inv, workRemaining, memWorkRemaining, aluSched, memSched]
    · cases instr with
      | none => simp at hinstr
      | some i =>
        cases i with
        | add pl =>
          simp only [aluSched, memSched] at halu hmem
          norm_num at halu hmem
          have haw := workRemaining_eq_none halu
          subst haw
          obtain ⟨mt, macc, wsar, wsir, hmw⟩ := memWorkRemaining_eq_some hmem
          subst hmw
          simp [Inv, workRemaining, memWorkRemaining, aluSched, memSched]
        | and pl =>
          simp only [aluSched, memSched] at halu hmem
          norm_num at halu hmem
          have haw := workRemaining_eq_none halu
          subst haw
          obtain ⟨mt, macc, wsar, wsir, hmw⟩ := memWorkRemaining_eq_some hmem
          subst hmw
          simp [Inv, workRemaining, memWorkRemaining, aluSched, memSched]
        | or pl =>
          simp only [aluSched, memSched] at halu hmem
          norm_num at halu hmem
          have haw := workRemaining_eq_none halu
          subst haw
          obtain ⟨mt, macc, wsar, wsir, hmw⟩ := memWorkRemaining_eq_some hmem
          subst hmw
          simp [Inv, workRemaining, memWorkRemaining, aluSched, memSched]
        | xor pl =>
          simp only [aluSched, memSched] at halu hmem
          norm_num at halu hmem
          have haw := workRemaining_eq_none halu
          subst haw
          obtain ⟨mt, macc, wsar, wsir, hmw⟩ := memWorkRemaining_eq_some hmem
          subst hmw
          simp [Inv, workRemaining, memWorkRemaining, aluSched, memSched]
        | loadValue pl =>
          simp only [aluSched, memSched] at halu hmem
          norm_num at hmem
          have haw := workRemaining_eq_none halu
          subst haw
          obtain ⟨mt, macc, wsar, wsir, hmw⟩ := memWorkRemaining_eq_some hmem
          subst hmw
          simp [Inv, workRemaining, memWorkRemaining, aluSched, memSched]
        | storeValue pl =>
          simp only [aluSched, memSched] at halu hmem
          norm_num at hmem
          have haw := workRemaining_eq_none halu
          subst haw
          obtain ⟨mt, macc, wsar, wsir, hmw⟩ := memWorkRemaining_eq_some hmem
          subst hmw
          simp [Inv, workRemaining, memWorkRemaining, aluSched, memSched]
        | loadConstant pl =>
          simp only [aluSched, memSched] at halu hmem
          have haw := workRemaining_eq_none halu
          subst haw
          have hmw := memWorkRemaining_eq_none hmem
          subst hmw
          simp [Inv, workRemaining, memWorkRemaining, aluSched, memSched]
        | jump pl =>
          simp only [aluSched, memSched] at halu hmem
          have haw := workRemaining_eq_none halu
          subst haw
          have hmw := memWorkRemaining_eq_none hmem
          subst hmw
          simp [Inv, workRemaining, memWorkRemaining, aluSched, memSched]
        | jumpIfNegative pl =>
          simp only [aluSched, memSched] at halu hmem
          have haw := workRemaining_eq_none halu
          subst haw
          have hmw := memWorkRemaining_eq_none hmem
          subst hmw
          simp [Inv, workRemaining, memWorkRemaining, aluSched, memSched]
        | equals pl =>
          simp only [aluSched, memSched] at halu hmem
          norm_num at halu hmem
          have haw := workRemaining_eq_none halu
          subst haw
          obtain ⟨mt, macc, wsar, wsir, hmw⟩ := memWorkRemaining_eq_some hmem
          subst hmw
          simp [Inv, workRemaining, memWorkRemaining, aluSched, memSched]
        | halt =>
          simp only [aluSched, memSched] at halu hmem
          have haw := workRemaining_eq_none halu
          subst haw
          have hmw := memWorkRemaining_eq_none hmem
          subst hmw
          simp [Inv, workRemaining, memWorkRemaining, aluSched, memSched]
        | not =>
          simp only [aluSched, memSched] at halu hmem
          norm_num at halu
          have haw := workRemaining_eq_none halu
          subst haw
          have hmw := memWorkRemaining_eq_none hmem
          subst hmw
          simp [Inv, workRemaining, memWorkRemaining, aluSched, memSched]
        | rotateRight pl =>
          simp only [aluSched, memSched] at halu hmem
          norm_num at halu
          obtain ⟨op, wx, wy, haw⟩ := workRemaining_eq_some halu
          subst haw
          have hmw := memWorkRemaining_eq_none hmem
          subst hmw
          simp [Inv, workRemaining, memWorkRemaining, aluSched, memSched]
        | noOperation =>
          simp only [aluSched, memSched] at halu hmem
          have haw := workRemaining_eq_none halu
          subst haw
          have hmw := memWorkRemaining_eq_none hmem
          subst hmw
          simp [Inv, workRemaining, memWorkRemaining, aluSched, memSched]
    · cases instr with
      | none => simp at hinstr
      | some i =>
        cases i with
        | add pl =>
          simp only [aluSched, memSched] at halu hmem
          norm_num at halu hmem
          have haw := workRemaining_eq_none halu
          subst haw
          obtain ⟨mt, macc, wsar, wsir, hmw⟩ := memWorkRemaining_eq_some hmem
          subst hmw
          cases mt <;> cases macc <;> simp [Inv, workRemaining, memWorkRemaining, aluSched, memSched]
        | and pl =>
          simp only [aluSched, memSched] at halu hmem
          norm_num at halu hmem
          have haw := workRemaining_eq_none halu
          subst haw
          obtain ⟨mt, macc, wsar, wsir, hmw⟩ := memWorkRemaining_eq_some hmem
          subst hmw
          cases mt <;> cases macc <;> simp [Inv, workRemaining, memWorkRemaining, aluSched, memSched]
        | or pl =>
          simp only [aluSched, memSched] at halu hmem
          norm_num at halu hmem
          have haw := workRemaining_eq_none halu
          subst haw
          obtain ⟨mt, macc, wsar, wsir, hmw⟩ := memWorkRemaining_eq_some hmem
          subst hmw
          cases mt <;> cases macc <;> simp [Inv, workRemaining, memWorkRemaining, aluSched, memSched]
        | xor pl =>
          simp only [aluSched, memSched] at halu hmem
          norm_num at halu hmem
          have haw := workRemaining_eq_none halu
          subst haw
          obtain ⟨mt, macc, wsar, wsir, hmw⟩ := memWorkRemaining_eq_some hmem
          subst hmw
          cases mt <;> cases macc <;> simp [Inv, workRemaining, memWorkRemaining, aluSched, memSched]
        | loadValue pl =>
          simp only [aluSched, memSched] at halu hmem
          norm_num at hmem
          have haw := workRemaining_eq_none halu
          subst haw
          obtain ⟨mt, macc, wsar, wsir, hmw⟩ := memWorkRemaining_eq_some hmem
          subst hmw
          cases mt <;> cases macc <;> simp [Inv, workRemaining, memWorkRemaining, aluSched, memSched]
        | storeValue pl =>
          simp only [aluSched, memSched] at halu hmem
          norm_num at hmem
          have haw := workRemaining_eq_none halu
          subst haw
          obtain ⟨mt, macc, wsar, wsir, hmw⟩ := memWorkRemaining_eq_some hmem
          subst hmw
          simp [Inv, workRemaining, memWorkRemaining, aluSched, memSched]
        | loadConstant pl =>
          simp only [aluSched, memSched] at halu hmem
          have haw := workRemaining_eq_none halu
          subst haw
          have hmw := memWorkRemaining_eq_none hmem
          subst hmw
          simp [Inv, workRemaining, memWorkRemaining, aluSched, memSched]
        | jump pl =>
          simp only [aluSched, memSched] at halu hmem
          have haw := workRemaining_eq_none halu
          subst haw
          have hmw := memWorkRemaining_eq_none hmem
          subst hmw
          simp [Inv, workRemaining, memWorkRemaining, aluSched, memSched]
        | jumpIfNegative pl =>
          simp only [aluSched, memSched] at halu hmem
          have haw := workRemaining_eq_none halu
          subst haw
          have hmw := memWorkRemaining_eq_none hmem
          subst hmw
          simp [Inv, workRemaining, memWorkRemaining, aluSched, memSched]
        | equals pl =>
          simp only [aluSched, memSched] at halu hmem
          norm_num at halu hmem
          have haw := workRemaining_eq_none halu
          subst haw
          obtain ⟨mt, macc, wsar, wsir, hmw⟩ := memWorkRemaining_eq_some hmem
          subst hmw
          cases mt <;> cases macc <;> simp [Inv, workRemaining, memWorkRemaining, aluSched, memSched]
        | halt =>
          simp only [aluSched, memSched] at halu hmem
          have haw := workRemaining_eq_none halu
          subst haw
          have hmw := memWorkRemaining_eq_none hmem
          subst hmw
          simp [Inv, workRemaining, memWorkRemaining, aluSched, memSched]
        | not =>
          simp only [aluSched, memSched] at halu hmem
          norm_num at halu
          have haw := workRemaining_eq_none halu
          subst haw
          have hmw := memWorkRemaining_eq_none hmem
          subst hmw
          simp [Inv, workRemaining, memWorkRemaining, aluSched, memSched]
        | rotateRight pl =>
          simp only [aluSched, memSched] at halu hmem
          norm_num at halu
          have haw := workRemaining_eq_none halu
          subst haw
          have hmw := memWorkRemaining_eq_none hmem
          subst hmw
          simp [Inv, workRemaining, memWorkRemaining, aluSched, memSched]
        | noOperation =>
          simp only [aluSched, memSched] at halu hmem
          have haw := workRemaining_eq_none halu
          subst haw
          have hmw := memWorkRemaining_eq_none hmem
          subst hmw
          simp [Inv, workRemaining, memWorkRemaining, aluSched, memSched]
    · cases instr with
      | none => simp at hinstr
      | some i =>
        cases i with
        | add pl =>
          simp only [aluSched, memSched] at halu hmem
          norm_num at halu hmem
          obtain ⟨op, wx, wy, haw⟩ := workRemaining_eq_some halu
          subst haw
          have hmw := memWorkRemaining_eq_none hmem
          subst hmw
          simp [Inv, workRemaining, memWorkRemaining, aluSched, memSched]
        | and pl =>
          simp only [aluSched, memSched] at halu hmem
          norm_num at halu hmem
          obtain ⟨op, wx, wy, haw⟩ := workRemaining_eq_some halu
          subst haw
          have hmw := memWorkRemaining_eq_none hmem
          subst hmw
          simp [Inv, workRemaining, memWorkRemaining, aluSched, memSched]
        | or pl =>
          simp only [aluSched, memSched] at halu hmem
          norm_num at halu hmem
          obtain ⟨op, wx, wy, haw⟩ := workRemaining_eq_some halu
          subst haw
          have hmw := memWorkRemaining_eq_none hmem
          subst hmw
          simp [Inv, workRemaining, memWorkRemaining, aluSched, memSched]
        | xor pl =>
          simp only [aluSched, memSched] at halu hmem
          norm_num at halu hmem
          obtain ⟨op, wx, wy, haw⟩ := workRemaining_eq_some halu
          subst haw
          have hmw := memWorkRemaining_eq_none hmem
          subst hmw
          simp [Inv, workRemaining, memWorkRemaining, aluSched, memSched]
        | loadValue pl =>
          simp only [aluSched, memSched] at halu hmem
          norm_num at hmem
          have haw := workRemaining_eq_none halu
          subst haw
          have hmw := memWorkRemaining_eq_none hmem
          subst hmw
          simp [Inv, workRemaining, memWorkRemaining, aluSched, memSched]
        | storeValue pl =>
          simp only [aluSched, memSched] at halu hmem
          norm_num at hmem
          have haw := workRemaining_eq_none halu
          subst haw
          obtain ⟨mt, macc, wsar, wsir, hmw⟩ := memWorkRemaining_eq_some hmem
          subst hmw
          cases mt <;> cases macc <;> simp [Inv, workRemaining, memWorkRemaining, aluSched, memSched]
        | loadConstant pl =>
          simp only [aluSched, memSched] at halu hmem
          have haw := workRemaining_eq_none halu
          subst haw
          have hmw := memWorkRemaining_eq_none hmem
          subst hmw
          simp [Inv, workRemaining, memWorkRemaining, aluSched, memSched]
        | jump pl =>
          simp only [aluSched, memSched] at halu hmem
          have haw := workRemaining_eq_none halu
          subst haw
          have hmw := memWorkRemaining_eq_none hmem
          subst hmw
          simp [Inv, workRemaining, memWorkRemaining, aluSched, memSched]
        | jumpIfNegative pl =>
          simp only [aluSched, memSched] at halu hmem
          have haw := workRemaining_eq_none halu
          subst haw
          have hmw := memWorkRemaining_eq_none hmem
          subst hmw
          simp [Inv, workRemaining, memWorkRemaining, aluSched, memSched]
        | equals pl =>
          simp only [aluSched, memSched] at halu hmem
          norm_num at halu hmem
          obtain ⟨op, wx, wy, haw⟩ := workRemaining_eq_some halu
          subst haw
          have hmw := memWorkRemaining_eq_none hmem
          subst hmw
          simp [Inv, workRemaining, memWorkRemaining, aluSched, memSched]
        | halt =>
          simp only [aluSched, memSched] at halu hmem
          have haw := workRemaining_eq_none halu
          subst haw
          have hmw := memWorkRemaining_eq_none hmem
          subst hmw
          simp [Inv, workRemaining, memWorkRemaining, aluSched, memSched]
        | not =>
          simp only [aluSched, memSched] at halu hmem
          norm_num at halu
          have haw := workRemaining_eq_none halu
          subst haw
          have hmw := memWorkRemaining_eq_none hmem
          subst hmw
          simp [Inv, workRemaining, memWorkRemaining, aluSched, memSched]
        | rotateRight pl =>
          simp only [aluSched, memSched] at halu hmem
          norm_num at halu
          have haw := workRemaining_eq_none halu
          subst haw
          have hmw := memWorkRemaining_eq_none hmem
          subst hmw
          simp [Inv, workRemaining, memWorkRemaining, aluSched, memSched]
        | noOperation =>
          simp only [aluSched, memSched] at halu hmem
          have haw := workRemaining_eq_none halu
          subst haw
          have hmw := memWorkRemaining_eq_none hmem
          subst hmw
          simp [Inv, workRemaining, memWorkRemaining, aluSched, memSched]
    · cases instr with
      | none => simp at hinstr
      | some i =>
        cases i with
        | add pl =>
          simp only [aluSched, memSched] at halu hmem
          norm_num at halu hmem
          obtain ⟨op, wx, wy, haw⟩ := workRemaining_eq_some halu
          subst haw
          have hmw := memWorkRemaining_eq_none hmem
          subst hmw
          simp [Inv, workRemaining, memWorkRemaining, aluSched, memSched]
        | and pl =>
          simp only [aluSched, memSched] at halu hmem
          norm_num at halu hmem
          obtain ⟨op, wx, wy, haw⟩ := workRemaining_eq_some halu
          subst haw
          have hmw := memWorkRemaining_eq_none hmem
          subst hmw
          simp [Inv, workRemaining, memWorkRemaining, aluSched, memSched]
        | or pl =>
          simp only [aluSched, memSched] at halu hmem
          norm_num at halu hmem
          obtain ⟨op, wx, wy, haw⟩ := workRemaining_eq_some halu
          subst haw
          have hmw := memWorkRemaining_eq_none hmem
          subst hmw
          simp [Inv, workRemaining, memWorkRemaining, aluSched, memSched]
        | xor pl =>
          simp only [aluSched, memSched] at halu hmem
          norm_num at halu hmem
          obtain ⟨op, wx, wy, haw⟩ := workRemaining_eq_some halu
          subst haw
          have hmw := memWorkRemaining_eq_none hmem
          subst hmw
          simp [Inv, workRemaining, memWorkRemaining, aluSched, memSched]
        | loadValue pl =>
          simp only [aluSched, memSched] at halu hmem
          norm_num at hmem
          have haw := workRemaining_eq_none halu
          subst haw
          have hmw := memWorkRemaining_eq_none hmem
          subst hmw
          simp [Inv, workRemaining, memWorkRemaining, aluSched, memSched]
        | storeValue pl =>
          simp only [aluSched, memSched] at halu hmem
          norm_num at hmem
          have haw := workRemaining_eq_none halu
          subst haw
          have hmw := memWorkRemaining_eq_none hmem
          subst hmw
          simp [Inv, workRemaining, memWorkRemaining, aluSched, memSched]
        | loadConstant pl =>
          simp only [aluSched, memSched] at halu hmem
          have haw := workRemaining_eq_none halu
          subst haw
          have hmw := memWorkRemaining_eq_none hmem
          subst hmw
          simp [Inv, workRemaining, memWorkRemaining, aluSched, memSched]
        | jump pl =>
          simp only [aluSched, memSched] at halu hmem
          have haw := workRemaining_eq_none halu
          subst haw
          have hmw := memWorkRemaining_eq_none hmem
          subst hmw
          simp [Inv, workRemaining, memWorkRemaining, aluSched, memSched]
        | jumpIfNegative pl =>
          simp only [aluSched, memSched] at halu hmem
          have haw := workRemaining_eq_none halu
          subst haw
          have hmw := memWorkRemaining_eq_none hmem
          subst hmw
          simp [Inv, workRemaining, memWorkRemaining, aluSched, memSched]
        | equals pl =>
          simp only [aluSched, memSched] at halu hmem
          norm_num at halu hmem
          obtain ⟨op, wx, wy, haw⟩ := workRemaining_eq_some halu
          subst haw
          have hmw := memWorkRemaining_eq_none hmem
          subst hmw
          simp [Inv, workRemaining, memWorkRemaining, aluSched, memSched]
        | halt =>
          simp only [aluSched, memSched] at halu hmem
          have haw := workRemaining_eq_none halu
          subst haw
          have hmw := memWorkRemaining_eq_none hmem
          subst hmw
          simp [Inv, workRemaining, memWorkRemaining, aluSched, memSched]
        | not =>
          simp only [aluSched, memSched] at halu hmem
          norm_num at halu
          have haw := workRemaining_eq_none halu
          subst haw
          have hmw := memWorkRemaining_eq_none hmem
          subst hmw
          simp [Inv, workRemaining, memWorkRemaining, aluSched, memSched]
        | rotateRight pl =>
          simp only [aluSched, memSched] at halu hmem
          norm_num at halu
          have haw := workRemaining_eq_none halu
          subst haw
          have hmw := memWorkRemaining_eq_none hmem
          subst hmw
          simp [Inv, workRemaining, memWorkRemaining, aluSched, memSched]
        | noOperation =>
          simp only [aluSched, memSched] at halu hmem
          have haw := workRemaining_eq_none halu
          subst haw
          have hmw := memWorkRemaining_eq_none hmem
          subst hmw
          simp [Inv, workRemaining, memWorkRemaining, aluSched, memSched]

theorem inv_no_conflict (m : Mima) (h : Inv m) :
    ((currentDescriptor m).alu_op.isSome → m.arithmetic_unit.poll_work.work = none) ∧
    ((currentDescriptor m).mem_access.isSome → m.memory_unit.poll_work.work = none) := by
  obtain ⟨au, cu, mu⟩ := m
  obtain ⟨iar, ir, st, mc, instr⟩ := cu
  obtain ⟨run, tra⟩ := st
  obtain ⟨acc, one, x, y, z, aw⟩ := au
  obtain ⟨sar, sir, mw, mem⟩ := mu
  obtain ⟨hmc1, hmc2, hinstr, halu, hmem, htra⟩ := h
  simp only at hmc1 hmc2 hinstr halu hmem htra
  interval_cases mc
  · cases instr with
    | some i => simp at hinstr
    | none =>
      simp only [aluSched, memSched] at halu hmem
      norm_num at halu hmem
      have haw := workRemaining_eq_none halu
      subst haw
      have hmw := memWorkRemaining_eq_none hmem
      subst hmw
      simp [currentDescriptor]
  · cases instr with
    | some i => simp at hinstr
    | none =>
      simp only [aluSched, memSched] at halu hmem
      norm_num at halu hmem
      have haw := workRemaining_eq_none halu
      subst haw
      obtain ⟨mt, macc, wsar, wsir, hmw⟩ := memWorkRemaining_eq_some hmem
      subst hmw
      simp [currentDescriptor]
  · cases instr with
    | some i => simp at hinstr
    | none =>
      simp only [aluSched, memSched] at halu hmem
      norm_num at halu hmem
      obtain ⟨op, wx, wy, haw⟩ := workRemaining_eq_some halu
      subst haw
      obtain ⟨mt, macc, wsar, wsir, hmw⟩ := memWorkRemaining_eq_some hmem
      subst hmw
      simp [currentDescriptor]
  · cases instr with
    | some i => simp at hinstr
    | none =>
      simp only [aluSched, memSched] at halu hmem
      norm_num at halu hmem
      obtain ⟨op, wx, wy, haw⟩ := workRemaining_eq_some halu
      subst haw
      obtain ⟨mt, macc, wsar, wsir, hmw⟩ := memWorkRemaining_eq_some hmem
      subst hmw
      simp [currentDescriptor]
  · cases instr with
    | some i => simp at hinstr
    | none =>
      simp only [aluSched, memSched] at halu hmem
      norm_num at halu hmem
      have haw := workRemaining_eq_none halu
      subst haw
      obtain ⟨mt, macc, wsar, wsir, hmw⟩ := memWorkRemaining_eq_some hmem
      subst hmw
      simp [currentDescriptor]
  · cases instr with
    | none => simp at hinstr
    | some i =>
      cases i with
      | add pl =>
        simp only [aluSched, memSched] at halu hmem
        norm_num at halu hmem
        have haw := workRemaining_eq_none halu
        subst haw
        have hmw := memWorkRemaining_eq_none hmem
        subst hmw
        simp [currentDescriptor]
      | and pl =>
        simp only [aluSched, memSched] at halu hmem
        norm_num at halu hmem
        have haw := workRemaining_eq_none halu
        subst haw
        have hmw := memWorkRemaining_eq_none hmem
        subst hmw
        simp [currentDescriptor]
      | or pl =>
        simp only [aluSched, memSched] at halu hmem
        norm_num at halu hmem
        have haw := workRemaining_eq_none halu
        subst haw
        have hmw := memWorkRemaining_eq_none hmem
        subst hmw
        simp [currentDescriptor]
      | xor pl =>
        simp only [aluSched, memSched] at halu hmem
        norm_num at halu hmem
        have haw := workRemaining_eq_none halu
        subst haw
        have hmw := memWorkRemaining_eq_none hmem
        subst hmw
        simp [currentDescriptor]
      | loadValue pl =>
        simp only [aluSched, memSched] at halu hmem
        norm_num at hmem
        have haw := workRemaining_eq_none halu
        subst haw
        have hmw := memWorkRemaining_eq_none hmem
        subst hmw
        simp [currentDescriptor]
      | storeValue pl =>
        simp only [aluSched, memSched] at halu hmem
        norm_num at hmem
        have haw := workRemaining_eq_none halu
        subst haw
        have hmw := memWorkRemaining_eq_none hmem
        subst hmw
        simp [currentDescriptor]
      | loadConstant pl =>
        simp only [aluSched, memSched] at halu hmem
        have haw := workRemaining_eq_none halu
        subst haw
        have hmw := memWorkRemaining_eq_none hmem
        subst hmw
        simp [currentDescriptor]
      | jump pl =>
        simp only [aluSched, memSched] at halu hmem
        have haw := workRemaining_eq_none halu
        subst haw
        have hmw := memWorkRemaining_eq_none hmem
        subst hmw
        simp [currentDescriptor]
      | jumpIfNegative pl =>
        simp only [aluSched, memSched] at halu hmem
        have haw := workRemaining_eq_none halu
        subst haw
        have hmw := memWorkRemaining_eq_none hmem
        subst hmw
        simp [currentDescriptor]
      | equals pl =>
        simp only [aluSched, memSched] at halu hmem
        norm_num at halu hmem
        have haw := workRemaining_eq_none halu
        subst haw
        have hmw := memWorkRemaining_eq_none hmem
        subst hmw
        simp [currentDescriptor]
      | halt =>
        simp only [aluSched, memSched] at halu hmem
        have haw := workRemaining_eq_none halu
        subst haw
        have hmw := memWorkRemaining_eq_none hmem
        subst hmw
        simp [currentDescriptor]
      | not =>
        simp only [aluSched, memSched] at halu hmem
        norm_num at halu
        have haw := workRemaining_eq_none halu
        subst haw
        have hmw := memWorkRemaining_eq_none hmem
        subst hmw
        simp [currentDescriptor]
      | rotateRight pl =>
        simp only [aluSched, memSched] at halu hmem
        norm_num at halu
        have haw := workRemaining_eq_none halu
        subst haw
        have hmw := memWorkRemaining_eq_none hmem
        subst hmw
        simp [currentDescriptor]
      | noOperation =>
        simp only [aluSched, memSched] at halu hmem
        have haw := workRemaining_eq_none halu
        subst haw
        have hmw := memWorkRemaining_eq_none hmem
        subst hmw
        simp [currentDescriptor]
  · cases instr with
    | none => simp at hinstr
    | some i =>
      cases i with
      | add pl =>
        simp only [aluSched, memSched] at halu hmem
        norm_num at halu hmem
        have haw := workRemaining_eq_none halu
        subst haw
        obtain ⟨mt, macc, wsar, wsir, hmw⟩ := memWorkRemaining_eq_some hmem
        subst hmw
        simp [currentDescriptor]
      | and pl =>
        simp only [aluSched, memSched] at halu hmem
        norm_num at halu hmem
        have haw := workRemaining_eq_none halu
        subst haw
        obtain ⟨mt, macc, wsar, wsir, hmw⟩ := memWorkRemaining_eq_some hmem
        subst hmw
        simp [currentDescriptor]
      | or pl =>
        simp only [aluSched, memSched] at halu hmem
        norm_num at halu hmem
        have haw := workRemaining_eq_none halu
        subst haw
        obtain ⟨mt, macc, wsar, wsir, hmw⟩ := memWorkRemaining_eq_some hmem
        subst hmw
        simp [currentDescriptor]
      | xor pl =>
        simp only [aluSched, memSched] at halu hmem
        norm_num at halu hmem
        have haw := workRemaining_eq_none halu
        subst haw
        obtain ⟨mt, macc, wsar, wsir, hmw⟩ := memWorkRemaining_eq_some hmem
        subst hmw
        simp [currentDescriptor]
      | loadValue pl =>
        simp only [aluSched, memSched] at halu hmem
        norm_num at hmem
        have haw := workRemaining_eq_none halu
        subst haw
        obtain ⟨mt, macc, wsar, wsir, hmw⟩ := memWorkRemaining_eq_some hmem
        subst hmw
        simp [currentDescriptor]
      | storeValue pl =>
        simp only [aluSched, memSched] at halu hmem
        norm_num at hmem
        have haw := workRemaining_eq_none halu
        subst haw
        have hmw := memWorkRemaining_eq_none hmem
        subst hmw
        simp [currentDescriptor]
      | loadConstant pl =>
        simp only [aluSched, memSched] at halu hmem
        have haw := workRemaining_eq_none halu
        subst haw
        have hmw := memWorkRemaining_eq_none hmem
        subst hmw
        simp [currentDescriptor]
      | jump pl =>
        simp only [aluSched, memSched] at halu hmem
        have haw := workRemaining_eq_none halu
        subst haw
        have hmw := memWorkRemaining_eq_none hmem
        subst hmw
        simp [currentDescriptor]
      | jumpIfNegative pl =>
        simp only [aluSched, memSched] at halu hmem
        have haw := workRemaining_eq_none halu
        subst haw
        have hmw := memWorkRemaining_eq_none hmem
        subst hmw
        simp [currentDescriptor]
      | equals pl =>
        simp only [aluSched, memSched] at halu hmem
        norm_num at halu hmem
        have haw := workRemaining_eq_none halu
        subst haw
        obtain ⟨mt, macc, wsar, wsir, hmw⟩ := memWorkRemaining_eq_some hmem
        subst hmw
        simp [currentDescriptor]
      | halt =>
        simp only [aluSched, memSched] at halu hmem
        have haw := workRemaining_eq_none halu
        subst haw
        have hmw := memWorkRemaining_eq_none hmem
        subst hmw
        simp [currentDescriptor]
      | not =>
        simp only [aluSched, memSched] at halu hmem
        norm_num at halu
        obtain ⟨op, wx, wy, haw⟩ := workRemaining_eq_some halu
        subst haw
        have hmw := memWorkRemaining_eq_none hmem
        subst hmw
        simp [currentDescriptor]
      | rotateRight pl =>
        simp only [aluSched, memSched] at halu hmem
        norm_num at halu
        have haw := workRemaining_eq_none halu
        subst haw
        have hmw := memWorkRemaining_eq_none hmem
        subst hmw
        simp [currentDescriptor]
      | noOperation =>
        simp only [aluSched, memSched] at halu hmem
        have haw := workRemaining_eq_none halu
        subst haw
        have hmw := memWorkRemaining_eq_none hmem
        subst hmw
        simp [currentDescriptor]
  · cases instr with
    | none => simp at hinstr
    | some i =>
      cases i with
      | add pl =>
        simp only [aluSched, memSched] at halu hmem
        norm_num at halu hmem
        have haw := workRemaining_eq_none halu
        subst haw
        obtain ⟨mt, macc, wsar, wsir, hmw⟩ := memWorkRemaining_eq_some hmem
        subst hmw
        simp [currentDescriptor]
      | and pl =>
        simp only [aluSched, memSched] at halu hmem
        norm_num at halu hmem
        have haw := workRemaining_eq_none halu
        subst haw
        obtain ⟨mt, macc, wsar, wsir, hmw⟩ := memWorkRemaining_eq_some hmem
        subst hmw
        simp [currentDescriptor]
      | or pl =>
        simp only [aluSched, memSched] at halu hmem
        norm_num at halu hmem
        have haw := workRemaining_eq_none halu
        subst haw
        obtain ⟨mt, macc, wsar, wsir, hmw⟩ := memWorkRemaining_eq_some hmem
        subst hmw
        simp [currentDescriptor]
      | xor pl =>
        simp only [aluSched, memSched] at halu hmem
        norm_num at halu hmem
        have haw := workRemaining_eq_none halu
        subst haw
        obtain ⟨mt, macc, wsar, wsir, hmw⟩ := memWorkRemaining_eq_some hmem
        subst hmw
        simp [currentDescriptor]
      | loadValue pl =>
        simp only [aluSched, memSched] at halu hmem
        norm_num at hmem
        have haw := workRemaining_eq_none halu
        subst haw
        obtain ⟨mt, macc, wsar, wsir, hmw⟩ := memWorkRemaining_eq_some hmem
        subst hmw
        simp [currentDescriptor]
      | storeValue pl =>
        simp only [aluSched, memSched] at halu hmem
        norm_num at hmem
        have haw := workRemaining_eq_none halu
        subst haw
        obtain ⟨mt, macc, wsar, wsir, hmw⟩ := memWorkRemaining_eq_some hmem
        subst hmw
        simp [currentDescriptor]
      | loadConstant pl =>
        simp only [aluSched, memSched] at halu hmem
        have haw := workRemaining_eq_none halu
        subst haw
        have hmw := memWorkRemaining_eq_none hmem
        subst hmw
        simp [currentDescriptor]
      | jump pl =>
        simp only [aluSched, memSched] at halu hmem
        have haw := workRemaining_eq_none halu
        subst haw
        have hmw := memWorkRemaining_eq_none hmem
        subst hmw
        simp [currentDescriptor]
      | jumpIfNegative pl =>
        simp only [aluSched, memSched] at halu hmem
        have haw := workRemaining_eq_none halu
        subst haw
        have hmw := memWorkRemaining_eq_none hmem
        subst hmw
        simp [currentDescriptor]
      | equals pl =>
        simp only [aluSched, memSched] at halu hmem
        norm_num at halu hmem
        have haw := workRemaining_eq_none halu
        subst haw
        obtain ⟨mt, macc, wsar, wsir, hmw⟩ := memWorkRemaining_eq_some hmem
        subst hmw
        simp [currentDescriptor]
      | halt =>
        simp only [aluSched, memSched] at halu hmem
        have haw := workRemaining_eq_none halu
        subst haw
        have hmw := memWorkRemaining_eq_none hmem
        subst hmw
        simp [currentDescriptor]
      | not =>
        simp only [aluSched, memSched] at halu hmem
        norm_num at halu
        obtain ⟨op, wx, wy, haw⟩ := workRemaining_eq_some halu
        subst haw
        have hmw := memWorkRemaining_eq_none hmem
        subst hmw
        simp [currentDescriptor]
      | rotateRight pl =>
        simp only [aluSched, memSched] at halu hmem
        norm_num at halu
        obtain ⟨op, wx, wy, haw⟩ := workRemaining_eq_some halu
        subst haw
        have hmw := memWorkRemaining_eq_none hmem
        subst hmw
        simp [currentDescriptor]
      | noOperation =>
        simp only [aluSched, memSched] at halu hmem
        have haw := workRemaining_eq_none halu
        subst haw
        have hmw := memWorkRemaining_eq_none hmem
        subst hmw
        simp [currentDescriptor]
  · cases instr with
    | none => simp at hinstr
    | some i =>
      cases i with
      | add pl =>
        simp only [aluSched, memSched] at halu hmem
        norm_num at halu hmem
        have haw := workRemaining_eq_none halu
        subst haw
        obtain ⟨mt, macc, wsar, wsir, hmw⟩ := memWorkRemaining_eq_some hmem
        subst hmw
        simp [currentDescriptor]
      | and pl =>
        simp only [aluSched, memSched] at halu hmem
        norm_num at halu hmem
        have haw := workRemaining_eq_none halu
        subst haw
        obtain ⟨mt, macc, wsar, wsir, hmw⟩ := memWorkRemaining_eq_some hmem
        subst hmw
        simp [currentDescriptor]
      | or pl =>
        simp only [aluSched, memSched] at halu hmem
        norm_num at halu hmem
        have haw := workRemaining_eq_none halu
        subst haw
        obtain ⟨mt, macc, wsar, wsir, hmw⟩ := memWorkRemaining_eq_some hmem
        subst hmw
        simp [currentDescriptor]
      | xor pl =>
        simp only [aluSched, memSched] at halu hmem
        norm_num at halu hmem
        have haw := workRemaining_eq_none halu
        subst haw
        obtain ⟨mt, macc, wsar, wsir, hmw⟩ := memWorkRemaining_eq_some hmem
        subst hmw
        simp [currentDescriptor]
      | loadValue pl =>
        simp only [aluSched, memSched] at halu hmem
        norm_num at hmem
        have haw := workRemaining_eq_none halu
        subst haw
        obtain ⟨mt, macc, wsar, wsir, hmw⟩ := memWorkRemaining_eq_some hmem
        subst hmw
        simp [currentDescriptor]
      | storeValue pl =>
        simp only [aluSched, memSched] at halu hmem
        norm_num at hmem
        have haw := workRemaining_eq_none halu
        subst haw
        obtain ⟨mt, macc, wsar, wsir, hmw⟩ := memWorkRemaining_eq_some hmem
        subst hmw
        simp [currentDescriptor]
      | loadConstant pl =>
        simp only [aluSched, memSched] at halu hmem
        have haw := workRemaining_eq_none halu
        subst haw
        have hmw := memWorkRemaining_eq_none hmem
        subst hmw
        simp [currentDescriptor]
      | jump pl =>
        simp only [aluSched, memSched] at halu hmem
        have haw := workRemaining_eq_none halu
        subst haw
        have hmw := memWorkRemaining_eq_none hmem
        subst hmw
        simp [currentDescriptor]
      | jumpIfNegative pl =>
        simp only [aluSched, memSched] at halu hmem
        have haw := workRemaining_eq_none halu
        subst haw
        have hmw := memWorkRemaining_eq_none hmem
        subst hmw
        simp [currentDescriptor]
      | equals pl =>
        simp only [aluSched, memSched] at halu hmem
        norm_num at halu hmem
        have haw := workRemaining_eq_none halu
        subst haw
        obtain ⟨mt, macc, wsar, wsir, hmw⟩ := memWorkRemaining_eq_some hmem
        subst hmw
        simp [currentDescriptor]
      | halt =>
        simp only [aluSched, memSched] at halu hmem
        have haw := workRemaining_eq_none halu
        subst haw
        have hmw := memWorkRemaining_eq_none hmem
        subst hmw
        simp [currentDescriptor]
      | not =>
        simp only [aluSched, memSched] at halu hmem
        norm_num at halu
        have haw := workRemaining_eq_none halu
        subst haw
        have hmw := memWorkRemaining_eq_none hmem
        subst hmw
        simp [currentDescriptor]
      | rotateRight pl =>
        simp only [aluSched, memSched] at halu hmem
        norm_num at halu
        obtain ⟨op, wx, wy, haw⟩ := workRemaining_eq_some halu
        subst haw
        have hmw := memWorkRemaining_eq_none hmem
        subst hmw
        simp [currentDescriptor]
      | noOperation =>
        simp only [aluSched, memSched] at halu hmem
        have haw := workRemaining_eq_none halu
        subst haw
        have hmw := memWorkRemaining_eq_none hmem
        subst hmw
        simp [currentDescriptor]
  · cases instr with
    | none => simp at hinstr
    | some i =>
      cases i with
      | add pl =>
        simp only [aluSched, memSched] at halu hmem
        norm_num at halu hmem
        have haw := workRemaining_eq_none halu
        subst haw
        obtain ⟨mt, macc, wsar, wsir, hmw⟩ := memWorkRemaining_eq_some hmem
        subst hmw
        simp [currentDescriptor]
      | and pl =>
        simp only [aluSched, memSched] at halu hmem
        norm_num at halu hmem
        have haw := workRemaining_eq_none halu
        subst haw
        obtain ⟨mt, macc, wsar, wsir, hmw⟩ := memWorkRemaining_eq_some hmem
        subst hmw
        simp [currentDescriptor]
      | or pl =>
        simp only [aluSched, memSched] at halu hmem
        norm_num at halu hmem
        have haw := workRemaining_eq_none halu
        subst haw
        obtain ⟨mt, macc, wsar, wsir, hmw⟩ := memWorkRemaining_eq_some hmem
        subst hmw
        simp [currentDescriptor]
      | xor pl =>
        simp only [aluSched, memSched] at halu hmem
        norm_num at halu hmem
        have haw := workRemaining_eq_none halu
        subst haw
        obtain ⟨mt, macc, wsar, wsir, hmw⟩ := memWorkRemaining_eq_some hmem
        subst hmw
        simp [currentDescriptor]
      | loadValue pl =>
        simp only [aluSched, memSched] at halu hmem
        norm_num at hmem
        have haw := workRemaining_eq_none halu
        subst haw
        obtain ⟨mt, macc, wsar, wsir, hmw⟩ := memWorkRemaining_eq_some hmem
        subst hmw
        simp [currentDescriptor]
      | storeValue pl =>
        simp only [aluSched, memSched] at halu hmem
        norm_num at hmem
        have haw := workRemaining_eq_none halu
        subst haw
        obtain ⟨mt, macc, wsar, wsir, hmw⟩ := memWorkRemaining_eq_some hmem
        subst hmw
        simp [currentDescriptor]
      | loadConstant pl =>
        simp only [aluSched, memSched] at halu hmem
        have haw := workRemaining_eq_none halu
        subst haw
        have hmw := memWorkRemaining_eq_none hmem
        subst hmw
        simp [currentDescriptor]
      | jump pl =>
        simp only [aluSched, memSched] at halu hmem
        have haw := workRemaining_eq_none halu
        subst haw
        have hmw := memWorkRemaining_eq_none hmem
        subst hmw
        simp [currentDescriptor]
      | jumpIfNegative pl =>
        simp only [aluSched, memSched] at halu hmem
        have haw := workRemaining_eq_none halu
        subst haw
        have hmw := memWorkRemaining_eq_none hmem
        subst hmw
        simp [currentDescriptor]
      | equals pl =>
        simp only [aluSched, memSched] at halu hmem
        norm_num at halu hmem
        have haw := workRemaining_eq_none halu
        subst haw
        obtain ⟨mt, macc, wsar, wsir, hmw⟩ := memWorkRemaining_eq_some hmem
        subst hmw
        simp [currentDescriptor]
      | halt =>
        simp only [aluSched, memSched] at halu hmem
        have haw := workRemaining_eq_none halu
        subst haw
        have hmw := memWorkRemaining_eq_none hmem
        subst hmw
        simp [currentDescriptor]
      | not =>
        simp only [aluSched, memSched] at halu hmem
        norm_num at halu
        have haw := workRemaining_eq_none halu
        subst haw
        have hmw := memWorkRemaining_eq_none hmem
        subst hmw
        simp [currentDescriptor]
      | rotateRight pl =>
        simp only [aluSched, memSched] at halu hmem
        norm_num at halu
        have haw := workRemaining_eq_none halu
        subst haw
        have hmw := memWorkRemaining_eq_none hmem
        subst hmw
        simp [currentDescriptor]
      | noOperation =>
        simp only [aluSched, memSched] at halu hmem
        have haw := workRemaining_eq_none halu
        subst haw
        have hmw := memWorkRemaining_eq_none hmem
        subst hmw
        simp [currentDescriptor]
  · cases instr with
    | none => simp at hinstr
    | some i =>
      cases i with
      | add pl =>
        simp only [aluSched, memSched] at halu hmem
        norm_num at halu hmem
        obtain ⟨op, wx, wy, haw⟩ := workRemaining_eq_some halu
        subst haw
        have hmw := memWorkRemaining_eq_none hmem
        subst hmw
        simp [currentDescriptor]
      | and pl =>
        simp only [aluSched, memSched] at halu hmem
        norm_num at halu hmem
        obtain ⟨op, wx, wy, haw⟩ := workRemaining_eq_some halu
        subst haw
        have hmw := memWorkRemaining_eq_none hmem
        subst hmw
        simp [currentDescriptor]
      | or pl =>
        simp only [aluSched, memSched] at halu hmem
        norm_num at halu hmem
        obtain ⟨op, wx, wy, haw⟩ := workRemaining_eq_some halu
        subst haw
        have hmw := memWorkRemaining_eq_none hmem
        subst hmw
        simp [currentDescriptor]
      | xor pl =>
        simp only [aluSched, memSched] at halu hmem
        norm_num at halu hmem
        obtain ⟨op, wx, wy, haw⟩ := workRemaining_eq_some halu
        subst haw
        have hmw := memWorkRemaining_eq_none hmem
        subst hmw
        simp [currentDescriptor]
      | loadValue pl =>
        simp only [aluSched, memSched] at halu hmem
        norm_num at hmem
        have haw := workRemaining_eq_none halu
        subst haw
        have hmw := memWorkRemaining_eq_none hmem
        subst hmw
        simp [currentDescriptor]
      | storeValue pl =>
        simp only [aluSched, memSched] at halu hmem
        norm_num at hmem
        have haw := workRemaining_eq_none halu
        subst haw
        obtain ⟨mt, macc, wsar, wsir, hmw⟩ := memWorkRemaining_eq_some hmem
        subst hmw
        simp [currentDescriptor]
      | loadConstant pl =>
        simp only [aluSched, memSched] at halu hmem
        have haw := workRemaining_eq_none halu
        subst haw
        have hmw := memWorkRemaining_eq_none hmem
        subst hmw
        simp [currentDescriptor]
      | jump pl =>
        simp only [aluSched, memSched] at halu hmem
        have haw := workRemaining_eq_none halu
        subst haw
        have hmw := memWorkRemaining_eq_none hmem
        subst hmw
        simp [currentDescriptor]
      | jumpIfNegative pl =>
        simp only [aluSched, memSched] at halu hmem
        have haw := workRemaining_eq_none halu
        subst haw
        have hmw := memWorkRemaining_eq_none hmem
        subst hmw
        simp [currentDescriptor]
      | equals pl =>
        simp only [aluSched, memSched] at halu hmem
        norm_num at halu hmem
        obtain ⟨op, wx, wy, haw⟩ := workRemaining_eq_some halu
        subst haw
        have hmw := memWorkRemaining_eq_none hmem
        subst hmw
        simp [currentDescriptor]
      | halt =>
        simp only [aluSched, memSched] at halu hmem
        have haw := workRemaining_eq_none halu
        subst haw
        have hmw := memWorkRemaining_eq_none hmem
        subst hmw
        simp [currentDescriptor]
      | not =>
        simp only [aluSched, memSched] at halu hmem
        norm_num at halu
        have haw := workRemaining_eq_none halu
        subst haw
        have hmw := memWorkRemaining_eq_none hmem
        subst hmw
        simp [currentDescriptor]
      | rotateRight pl =>
        simp only [aluSched, memSched] at halu hmem
        norm_num at halu
        have haw := workRemaining_eq_none halu
        subst haw
        have hmw := memWorkRemaining_eq_none hmem
        subst hmw
        simp [currentDescriptor]
      | noOperation =>
        simp only [aluSched, memSched] at halu hmem
        have haw := workRemaining_eq_none halu
        subst haw
        have hmw := memWorkRemaining_eq_none hmem
        subst hmw
        simp [currentDescriptor]
  · cases instr with
    | none => simp at hinstr
    | some i =>
      cases i with
      | add pl =>
        simp only [aluSched, memSched] at halu hmem
        norm_num at halu hmem
        obtain ⟨op, wx, wy, haw⟩ := workRemaining_eq_some halu
        subst haw
        have hmw := memWorkRemaining_eq_none hmem
        subst hmw
        simp [currentDescriptor]
      | and pl =>
        simp only [aluSched, memSched] at halu hmem
        norm_num at halu hmem
        obtain ⟨op, wx, wy, haw⟩ := workRemaining_eq_some halu
        subst haw
        have hmw := memWorkRemaining_eq_none hmem
        subst hmw
        simp [currentDescriptor]
      | or pl =>
        simp only [aluSched, memSched] at halu hmem
        norm_num at halu hmem
        obtain ⟨op, wx, wy, haw⟩ := workRemaining_eq_some halu
        subst haw
        have hmw := memWorkRemaining_eq_none hmem
        subst hmw
        simp [currentDescriptor]
      | xor pl =>
        simp only [aluSched, memSched] at halu hmem
        norm_num at halu hmem
        obtain ⟨op, wx, wy, haw⟩ := workRemaining_eq_some halu
        subst haw
        have hmw := memWorkRemaining_eq_none hmem
        subst hmw
        simp [currentDescriptor]
      | loadValue pl =>
        simp only [aluSched, memSched] at halu hmem
        norm_num at hmem
        have haw := workRemaining_eq_none halu
        subst haw
        have hmw := memWorkRemaining_eq_none hmem
        subst hmw
        simp [currentDescriptor]
      | storeValue pl =>
        simp only [aluSched, memSched] at halu hmem
        norm_num at hmem
        have haw := workRemaining_eq_none halu
        subst haw
        have hmw := memWorkRemaining_eq_none hmem
        subst hmw
        simp [currentDescriptor]
      | loadConstant pl =>
        simp only [aluSched, memSched] at halu hmem
        have haw := workRemaining_eq_none halu
        subst haw
        have hmw := memWorkRemaining_eq_none hmem
        subst hmw
        simp [currentDescriptor]
      | jump pl =>
        simp only [aluSched, memSched] at halu hmem
        have haw := workRemaining_eq_none halu
        subst haw
        have hmw := memWorkRemaining_eq_none hmem
        subst hmw
        simp [currentDescriptor]
      | jumpIfNegative pl =>
        simp only [aluSched, memSched] at halu hmem
        have haw := workRemaining_eq_none halu
        subst haw
        have hmw := memWorkRemaining_eq_none hmem
        subst hmw
        simp [currentDescriptor]
      | equals pl =>
        simp only [aluSched, memSched] at halu hmem
        norm_num at halu hmem
        obtain ⟨op, wx, wy, haw⟩ := workRemaining_eq_some halu
        subst haw
        have hmw := memWorkRemaining_eq_none hmem
        subst hmw
        simp [currentDescriptor]
      | halt =>
        simp only [aluSched, memSched] at halu hmem
        have haw := workRemaining_eq_none halu
        subst haw
        have hmw := memWorkRemaining_eq_none hmem
        subst hmw
        simp [currentDescriptor]
      | not =>
        simp only [aluSched, memSched] at halu hmem
        norm_num at halu
        have haw := workRemaining_eq_none halu
        subst haw
        have hmw := memWorkRemaining_eq_none hmem
        subst hmw
        simp [currentDescriptor]
      | rotateRight pl =>
        simp only [aluSched, memSched] at halu hmem
        norm_num at halu
        have haw := workRemaining_eq_none halu
        subst haw
        have hmw := memWorkRemaining_eq_none hmem
        subst hmw
        simp [currentDescriptor]
      | noOperation =>
        simp only [aluSched, memSched] at halu hmem
        have haw := workRemaining_eq_none halu
        subst haw
        have hmw := memWorkRemaining_eq_none hmem
        subst hmw
        simp [currentDescriptor]

theorem inv_initial (mem0 : Nat → Nat) : Inv (initialMima mem0) := by
  simp [Inv, initialMima, Mima.new, ControlUnit.new, ArithmeticUnit.new, MemoryUnit.new,
    Status.new, workRemaining, memWorkRemaining, aluSched, memSched]

theorem inv_stepN : ∀ (n : Nat) (m : Mima), Inv m → Inv (stepN n m)
  | 0, _, h => h
  | n + 1, m, h => inv_stepN n m.step (inv_step m h)

theorem write_bus_dest_control (m : Mima) (r : Reg) (v : Nat) :
    (m.write_bus_dest r v).control_unit.status.run = m.control_unit.status.run ∧
    (m.write_bus_dest r v).control_unit.microcycle = m.control_unit.microcycle ∧
    (m.write_bus_dest r v).control_unit.instruction = m.control_unit.instruction := by
  cases r <;> exact ⟨rfl, rfl, rfl⟩

theorem foldl_write_bus_control (v : Nat) :
    ∀ (L : List Reg) (m : Mima),
      ((L.foldl (fun m' dest => m'.write_bus_dest dest v) m).control_unit.status.run
          = m.control_unit.status.run) ∧
      ((L.foldl (fun m' dest => m'.write_bus_dest dest v) m).control_unit.microcycle
          = m.control_unit.microcycle) ∧
      ((L.foldl (fun m' dest => m'.write_bus_dest dest v) m).control_unit.instruction
          = m.control_unit.instruction)
  | [], _ => ⟨rfl, rfl, rfl⟩
  | d :: L, m => by
    have h1 := write_bus_dest_control m d v
    have h2 := foldl_write_bus_control v L (m.write_bus_dest d v)
    simp only [List.foldl_cons]
    exact ⟨h2.1.trans h1.1, (h2.2.1).trans h1.2.1, (h2.2.2).trans h1.2.2⟩

theorem bus_xfer_control (m : Mima) (bx : BusXfer) :
    (m.perform_bus_xfer bx).control_unit.status.run = m.control_unit.status.run ∧
    (m.perform_bus_xfer bx).control_unit.microcycle = m.control_unit.microcycle ∧
    (m.perform_bus_xfer bx).control_unit.instruction = m.control_unit.instruction := by
  unfold Mima.perform_bus_xfer
  split
  · exact ⟨rfl, rfl, rfl⟩
  · exact foldl_write_bus_control _ _ _

theorem process_descriptor_control (m : Mima) (d : Descriptor) :
    (m.process_microcycle_descriptor d).control_unit.status.run
        = m.control_unit.status.run ∧
    (m.process_microcycle_descriptor d).control_unit.microcycle
        = m.control_unit.microcycle ∧
    (m.process_microcycle_descriptor d).control_unit.instruction
        = m.control_unit.instruction := by
  obtain ⟨obx, oalu, omem⟩ := d
  unfold Mima.process_microcycle_descriptor
  cases obx with
  | none =>
    cases oalu with
    | none =>
      cases omem with
      | none => exact ⟨rfl, rfl, rfl⟩
      | some a => exact ⟨pms_run _ _, pms_mc _ _, pms_instr _ _⟩
    | some op =>
      cases omem with
      | none => exact ⟨rfl, rfl, rfl⟩
      | some a => exact ⟨pms_run _ _, pms_mc _ _, pms_instr _ _⟩
  | some bx =>
    cases oalu with
    | none =>
      cases omem with
      | none => exact bus_xfer_control m bx
      | some a =>
        have h1 := bus_xfer_control m bx
        exact ⟨(pms_run _ _).trans h1.1, (pms_mc _ _).trans h1.2.1,
          (pms_instr _ _).trans h1.2.2⟩
    | some op =>
      cases omem with
      | none => exact bus_xfer_control m bx
      | some a =>
        have h1 := bus_xfer_control m bx
        exact ⟨(pms_run _ _).trans h1.1, (pms_mc _ _).trans h1.2.1,
          (pms_instr _ _).trans h1.2.2⟩

theorem end_microcycle_run (u : ControlUnit) :
    u.end_microcycle.status.run =
      if u.microcycle = 12 ∧ u.instruction = some .halt then false
      else u.status.run := by
  unfold ControlUnit.end_microcycle
  by_cases h5 : u.microcycle = 5
  · simp [h5]
  · by_cases h12 : u.microcycle = 12
    · simp only [h5, h12, if_true, if_false, ite_true, ite_false, reduceIte]
      cases hi : u.instruction with
      | none => simp
      | some i => cases i <;> simp
    · simp [h5, h12]

/-- The run flag after one `perform_microcycle`, for an arbitrary machine
state: it is cleared exactly by the microcycle that ends with counter 12
and a stored HLT instruction. -/
theorem step_run (m : Mima) :
    m.step.control_unit.status.run =
      if m.control_unit.status.run = false then false
      else if m.control_unit.microcycle = 12 ∧ m.control_unit.instruction = some .halt
      then false else true := by
  cases hrun : m.control_unit.status.run with
  | false =>
    simp only [Mima.step, Mima.perform_microcycle, hrun]
    simp [hrun]
  | true =>
    simp only [Mima.step, Mima.perform_microcycle, hrun]
    simp only [if_true, Bool.true_eq_false, if_false, reduceIte]
    have hp := process_descriptor_control
      { m with
        arithmetic_unit := m.arithmetic_unit.poll_work
        memory_unit := m.memory_unit.poll_work }
      (match m.control_unit.instruction with
        | some instruction => execute_descriptor m.control_unit.microcycle instruction
        | none => fetch_descriptor m.control_unit.microcycle)
    rw [end_microcycle_run, hp.2.1, hp.2.2]
    by_cases hc : m.control_unit.microcycle = 12 ∧ m.control_unit.instruction = some .halt
    · rw [if_pos hc, if_pos hc]
    · rw [if_neg hc, if_neg hc, hp.1]
      exact hrun

/-- Claim C5: in every state reachable from a fresh machine (any memory
image loaded) by repeated `perform_microcycle` calls, the control unit's
stored instruction is `some _` exactly when the microcycle counter is in
[6, 12], and `none` when the counter is in [1, 5]. -/
theorem claim_c5_execute_phase (mem0 : Nat → Nat) (n : Nat) :
    ((stepN n (initialMima mem0)).control_unit.instruction.isSome ↔
      6 ≤ (stepN n (initialMima mem0)).control_unit.microcycle ∧
        (stepN n (initialMima mem0)).control_unit.microcycle ≤ 12) ∧
    (1 ≤ (stepN n (initialMima mem0)).control_unit.microcycle ∧
        (stepN n (initialMima mem0)).control_unit.microcycle ≤ 5 →
      (stepN n (initialMima mem0)).control_unit.instruction = none) := by
  obtain ⟨h1, h2, h3, _, _, _⟩ := inv_stepN n _ (inv_initial mem0)
  constructor
  · exact ⟨fun hs => ⟨h3.mp hs, h2⟩, fun hc => h3.mpr hc.1⟩
  · intro hc
    cases hinstr : (stepN n (initialMima mem0)).control_unit.instruction with
    | none => rfl
    | some i =>
      exfalso
      have h6 := h3.mp (by rw [hinstr]; rfl)
      omega

theorem claim_c5_witness :
    (stepN 3 (initialMima (fun _ => encode .halt))).control_unit.instruction = none :=
  (claim_c5_execute_phase (fun _ => encode .halt) 3).2 (by decide)

/-- Claim C4: in every state reachable from a fresh machine (any memory
image loaded), whenever the current microcycle descriptor carries an ALU
or memory signal, the corresponding unit has no pending work left after
its poll — so `signal_alu` and `signal_memory` are only ever called with
no work in flight and their `already in progress` assertions never fire
(at most one job per unit exists at any time by construction, `work`
being an `Option`). -/
theorem claim_c4_single_work_in_flight (mem0 : Nat → Nat) (n : Nat) :
    ((currentDescriptor (stepN n (initialMima mem0))).alu_op.isSome →
      (stepN n (initialMima mem0)).arithmetic_unit.poll_work.work = none) ∧
    ((currentDescriptor (stepN n (initialMima mem0))).mem_access.isSome →
      (stepN n (initialMima mem0)).memory_unit.poll_work.work = none) :=
  inv_no_conflict _ (inv_stepN n _ (inv_initial mem0))

theorem claim_c4_witness :
    (currentDescriptor (stepN 1 (initialMima (fun _ => encode .halt)))).alu_op.isSome
        = true ∧
    (stepN 1 (initialMima (fun _ => encode .halt))).arithmetic_unit.poll_work.work
        = none :=
  ⟨by decide, (claim_c4_single_work_in_flight (fun _ => encode .halt) 1).1 (by decide)⟩

/-- Claim C1: on a machine whose first real instruction is HLT, the first
12 `perform_microcycle` calls return `some` descriptor and the 13th
returns `none`; in general a call returns `none` exactly when the RUN
flag is clear, the RUN flag is cleared exactly by the microcycle that
ends with counter 12 and a stored HLT, and a halted machine never moves
again (so every subsequent call also returns `none`). -/
theorem claim_c1_hlt_completion :
    (∀ k, k < 12 → (Mima.perform_microcycle (stepN k mimaHlt)).1.isSome = true) ∧
    (Mima.perform_microcycle (stepN 12 mimaHlt)).1 = none ∧
    (∀ m : Mima, m.perform_microcycle.1 = none ↔ m.control_unit.status.run = false) ∧
    (∀ m : Mima, m.control_unit.status.run = true →
      (m.step.control_unit.status.run = false ↔
        m.control_unit.microcycle = 12 ∧ m.control_unit.instruction = some .halt)) ∧
    (∀ m : Mima, m.control_unit.status.run = false → m.step = m) := by
  refine ⟨by decide, by decide, ?_, ?_, ?_⟩
  · intro m
    cases hrun : m.control_unit.status.run <;> simp [Mima.perform_microcycle, hrun]
  · intro m hrun
    rw [step_run m, hrun]
    by_cases hc : m.control_unit.microcycle = 12 ∧ m.control_unit.instruction = some .halt
    · simp [hc]
    · simp [hc]
  · intro m hrun
    simp [Mima.step, Mima.perform_microcycle, hrun]

theorem claim_c1_witness :
    (Mima.perform_microcycle (stepN 0 mimaHlt)).1.isSome = true :=
  claim_c1_hlt_completion.1 0 (by norm_num)

theorem valLE_decDigitsRevAux : ∀ (fuel n : Nat), n < 10 ^ fuel →
    valLE (decDigitsRevAux fuel n) = n
  | 0, n, h => by
    interval_cases n
    rfl
  | fuel + 1, n, h => by
    by_cases h0 : n = 0
    · simp [decDigitsRevAux, h0, valLE]
    · have hdiv : n / 10 < 10 ^ fuel := by
        rw [Nat.div_lt_iff_lt_mul (by norm_num)]
        calc n < 10 ^ (fuel + 1) := h
          _ = 10 ^ fuel * 10 := by rw [pow_succ]
      have ih := valLE_decDigitsRevAux fuel (n / 10) hdiv
      simp only [decDigitsRevAux, h0, if_false, ite_false, valLE, ih]
      omega

theorem length_decDigitsRevAux : ∀ (fuel n : Nat), (decDigitsRevAux fuel n).length ≤ fuel
  | 0, _ => by simp [decDigitsRevAux]
  | fuel + 1, n => by
    by_cases h0 : n = 0
    · simp [decDigitsRevAux, h0]
    · simp only [decDigitsRevAux, h0, if_false, ite_false, List.length_cons]
      have := length_decDigitsRevAux fuel (n / 10)
      omega

theorem all_decDigitsRevAux : ∀ (fuel n : Nat),
    (decDigitsRevAux fuel n).all (fun d => d < 10) = true
  | 0, _ => rfl
  | fuel + 1, n => by
    by_cases h0 : n = 0
    · simp [decDigitsRevAux, h0]
    · simp only [decDigitsRevAux, h0, if_false, ite_false, List.all_cons,
        all_decDigitsRevAux fuel (n / 10), Bool.and_true]
      simp [Nat.mod_lt n (show 0 < 10 by norm_num)]

theorem foldl_reverse_valLE : ∀ (L : List Nat) (a : Nat),
    L.reverse.foldl (fun acc d => acc * 10 + d) a = a * 10 ^ L.length + valLE L
  | [], a => by simp [valLE]
  | d :: ds, a => by
    rw [List.reverse_cons, List.foldl_append, foldl_reverse_valLE ds a]
    simp only [List.foldl_cons, List.foldl_nil, valLE, List.length_cons, pow_succ]
    ring

theorem decimalDigits_value (n : Nat) (h : n < 10 ^ 10) :
    (decimalDigits n).foldl (fun acc d => acc * 10 + d) 0 = n := by
  by_cases h0 : n = 0
  · simp [decimalDigits, h0, valLE]
  · unfold decimalDigits
    rw [if_neg h0, foldl_reverse_valLE, valLE_decDigitsRevAux 10 n h]
    simp

theorem decimalDigits_length (n : Nat) :
    1 ≤ (decimalDigits n).length ∧ (decimalDigits n).length ≤ 10 := by
  by_cases h0 : n = 0
  · simp [decimalDigits, h0]
  · unfold decimalDigits
    rw [if_neg h0]
    have hub := length_decDigitsRevAux 10 n
    have hlb : decDigitsRevAux 10 n ≠ [] := by
      simp [decDigitsRevAux, h0]
    constructor
    · rw [List.length_reverse]
      cases hd : decDigitsRevAux 10 n with
      | nil => exact absurd hd hlb
      | cons d ds => simp
    · rw [List.length_reverse]
      exact hub

theorem decimalDigits_all (n : Nat) :
    (decimalDigits n).all (fun d => d < 10) = true := by
  by_cases h0 : n = 0
  · simp [decimalDigits, h0]
  · unfold decimalDigits
    rw [if_neg h0, List.all_reverse]
    exact all_decDigitsRevAux 10 n

/-- Claim C8 counterexample: the decimal literal for `2 ^ 31` parses
successfully, but the resulting word `0x80000000` reads back as `-2 ^ 31`
under the two's-complement signed interpretation, not as `2 ^ 31`. -/
theorem claim_c8_counterexample :
    word_token_dec_model (decimalSign (2 ^ 31)) (decimalDigits (2 ^ 31 : Int).natAbs)
        = some 0x80000000 ∧
    toSigned 0x80000000 = -(2 ^ 31) ∧ (-(2 ^ 31) : Int) ≠ 2 ^ 31 := by
  decide

/-- Claim C8 (amended): for every integer `n` in `[-2 ^ 31, 2 ^ 31)`,
parsing the decimal representation of `n` as a number literal succeeds
and yields a word below `2 ^ 32` whose two's-complement signed
interpretation equals `n`.  (At the right endpoint `n = 2 ^ 31` the parse
still succeeds but the word `0x80000000` reads back as `-2 ^ 31`.) -/
theorem claim_c8_decimal_literal (n : Int) (hlo : -(2 ^ 31) ≤ n) (hhi : n < 2 ^ 31) :
    ∃ w, word_token_dec_model (decimalSign n) (decimalDigits n.natAbs) = some w ∧
      w < 2 ^ 32 ∧ toSigned w = n := by
  have hna : n.natAbs < 10 ^ 10 := by
    have : n.natAbs ≤ 2 ^ 31 := by omega
    omega
  have hv := decimalDigits_value n.natAbs hna
  have hlen := decimalDigits_length n.natAbs
  have hall := decimalDigits_all n.natAbs
  have hlt32 : n.natAbs < 2 ^ 32 := by omega
  unfold word_token_dec_model from_str_radix_dec
  rw [if_pos ⟨hlen.1, hlen.2, hall⟩]
  simp only [hv, if_pos (by omega : n.natAbs < 2 ^ 32)]
  by_cases hneg : n < 0
  · have hpos : n.natAbs > 0 := by omega
    have hsign : decimalSign n = some '-' := by simp [decimalSign, hneg]
    rw [hsign, if_pos ⟨rfl, hpos⟩, if_pos (by omega : n.natAbs ≤ 0x80000000)]
    refine ⟨(0xFFFFFFFF - n.natAbs + 1) % 2 ^ 32, rfl, Nat.mod_lt _ (by norm_num), ?_⟩
    have hmod : (0xFFFFFFFF - n.natAbs + 1) % 2 ^ 32 = 2 ^ 32 - n.natAbs := by omega
    rw [hmod]
    unfold toSigned
    rw [if_neg (by omega : ¬2 ^ 32 - n.natAbs < 2 ^ 31)]
    omega
  · have hsign : decimalSign n = none := by simp [decimalSign, hneg]
    rw [hsign]
    rw [if_neg (by simp)]
    refine ⟨n.natAbs, rfl, hlt32, ?_⟩
    unfold toSigned
    rw [if_pos (by omega : n.natAbs < 2 ^ 31)]
    omega

/-- Claim C8 witness: the literal `-1` parses to `0xFFFFFFFF`, whose
signed interpretation is `-1`. -/
theorem claim_c8_witness :
    ∃ w, word_token_dec_model (decimalSign (-1)) (decimalDigits (-1 : Int).natAbs)
        = some w ∧ w < 2 ^ 32 ∧ toSigned w = -1 :=
  claim_c8_decimal_literal (-1) (by norm_num) (by norm_num)

end MimaSim
